import Mathlib

/-
  Verification development for the pando-codedata-service repository.

  Shallow embedding of the parts of the code that the checked claims are
  about:
  * the Python AST analyzer (app/codebase/codeast/services/analyzers/python_analyzer.py),
  * the Go analyzer (app/codeast/services/analyzers/go_analyzer.py),
  * the folder walker (app/codeast/services/ast_analyzer.py),
  * the Neo4j graph client (app/codebase/codegraph/services/neo4j_client.py),
  * the summarizer (app/codesummary/services/code_summary.py with the
    ContentType enum of app/codebase/codesummary/models/model.py),
  * the chunk repository management classes
    (app/codebase/codechunk/services/repo_chunks_mgmt.py and
     repo_functions_mgmt.py).
-/
/-! ## String helpers mirroring the Python primitives used by the code -/
/-- Mirrors Python str.split with a one-character separator: splits on every
occurrence of the separator, keeping empty parts; the empty string yields a
singleton list holding the empty string, exactly as in Python. -/
def pySplitChars (sep : Char) : List Char → List String
  | [] => [""]
  | c :: cs =>
    let rest := pySplitChars sep cs
    if c = sep then
      "" :: rest
    else
      match rest with
      | [] => [String.mk [c]]
      | r :: rs => String.mk (c :: r.data) :: rs

/-- Python str.split(sep) for a one-character separator. -/
def pySplit (sep : Char) (s : String) : List String :=
  pySplitChars sep s.data

/-- Mirrors Python sep.join(parts). -/
def pyJoin (sep : String) : List String → String
  | [] => ""
  | [p] => p
  | p :: ps => p ++ sep ++ pyJoin sep ps

/-- Mirrors Python list slicing parts[:-l] for l > 0: all but the last l
elements (empty when l is at least the length). -/
def pyDropLast (l : List String) (n : Nat) : List String :=
  l.take (l.length - n)

/-- Mirrors Python str.startswith for a one-character prefix test used by the
analyzers (leading underscore and leading dot checks). -/
def pyStartsWith (c : Char) (s : String) : Bool :=
  match s.data with
  | [] => false
  | d :: _ => d = c

/-! ## Python dict as an insertion-ordered association list

The analyzer builds its import map in a Python dict; assigning to an existing
key overwrites the value in place, a new key is appended. Only lookups of the
final map matter to the claims. -/
/-- Python dict assignment d[k] = v on an association list. -/
def dictInsert (k v : String) : List (String × String) → List (String × String)
  | [] => [(k, v)]
  | (k₀, v₀) :: rest =>
    if k₀ = k then (k₀, v) :: rest else (k₀, v₀) :: dictInsert k v rest

/-- Python dict lookup d.get(k). -/
def dictGet (k : String) (d : List (String × String)) : Option String :=
  (d.find? fun kv => kv.1 = k).map Prod.snd

/-! ## Python AST

A shallow model of the AST nodes that PythonAnalyzer inspects. Annotation
expressions are carried as their source text (the analyzer only ever calls
ast.unparse on them). Import aliases are (name, asname) pairs. Line numbers
are carried so that two textually equal definitions at different places stay
distinguishable, matching the identity semantics of CPython AST objects. -/
structure PyArg where
  name : String
  annot : Option String
  deriving DecidableEq, Repr

structure PyArgs where
  args : List PyArg
  vararg : Option String
  kwonlyargs : List PyArg
  kwarg : Option String
  deriving DecidableEq, Repr

inductive PyStmt where
  | funcDef (name : String) (args : PyArgs) (returns : Option String)
      (lineno : Nat) (body : List PyStmt)
  | classDef (name : String) (bases : List String) (lineno : Nat)
      (body : List PyStmt)
  | importStmt (names : List (String × Option String))
  | importFrom (module : Option String) (level : Nat)
      (names : List (String × Option String))
  | passStmt
  deriving Repr

mutual

/-- Structural equality of statements; positions (lineno) are part of a
statement, so two textually equal definitions at different lines stay
distinct, matching the identity semantics of CPython AST objects. -/
def pyStmtEq : PyStmt → PyStmt → Bool
  | .funcDef n a r l b, .funcDef n₂ a₂ r₂ l₂ b₂ =>
    n = n₂ && a = a₂ && r = r₂ && l = l₂ && pyStmtListEq b b₂
  | .classDef n bs l b, .classDef n₂ bs₂ l₂ b₂ =>
    n = n₂ && bs = bs₂ && l = l₂ && pyStmtListEq b b₂
  | .importStmt ns, .importStmt ns₂ => ns = ns₂
  | .importFrom m l ns, .importFrom m₂ l₂ ns₂ => m = m₂ && l = l₂ && ns = ns₂
  | .passStmt, .passStmt => true
  | _, _ => false

/-- Structural equality of statement lists. -/
def pyStmtListEq : List PyStmt → List PyStmt → Bool
  | [], [] => true
  | s :: rest, t :: rest₂ => pyStmtEq s t && pyStmtListEq rest rest₂
  | _, _ => false

end

instance : BEq PyStmt := ⟨pyStmtEq⟩

mutual

/-- Model of ast.walk from one statement, restricted to statement nodes: the
statement followed by every statement nested below it. The source uses
ast.walk, a breadth-first enumeration; the claims only depend on which
statements occur, never on the enumeration order, and this flattening yields
the same set of statements. -/
def pyWalkStmt : PyStmt → List PyStmt
  | .funcDef n a r l body => .funcDef n a r l body :: pyWalkStmts body
  | .classDef n bs l body => .classDef n bs l body :: pyWalkStmts body
  | s => [s]

/-- Model of ast.walk over a statement list (a module body). -/
def pyWalkStmts : List PyStmt → List PyStmt
  | [] => []
  | s :: rest => pyWalkStmt s ++ pyWalkStmts rest

end

/-! ## PythonAnalyzer._get_module_path

Computes the module path from the project-relative file path: strip the
extension, replace path separators by dots. os.path.splitext splits at the
last dot of the last component (a purely leading dot starts a hidden file and
is not an extension separator). -/
/-- Drop the extension from the last path component, as os.path.splitext does
for plain relative paths: remove from the last dot of the basename on, unless
every character before that dot is itself a dot. -/
def pySplitextRoot (path : String) : String :=
  let comps := pySplit '/' path
  match comps.getLast? with
  | none => path
  | some base =>
    let parts := pySplit '.' base
    match parts with
    | [] => path
    | [_] => path
    | p :: ps =>
      -- at least one dot in the basename
      if (p :: ps).dropLast.all (· = "") then path
      else pyJoin "/" (comps.dropLast ++ [pyJoin "." (p :: ps).dropLast])

/-- PythonAnalyzer._get_module_path on the already-relative file path:
splitext to strip the extension, then replace the separator by a dot. -/
def getModulePath (relPath : String) : String :=
  String.mk ((pySplitextRoot relPath).data.map fun c => if c = '/' then '.' else c)

/-! ## PythonAnalyzer._analyze_imports

Resolves the import statements of the walked tree into a map from local name
to fully qualified name, converting relative imports against the current
module path. -/
/-- Processing of one ast.ImportFrom node, given the dot-separated parts of
the current module path. Returns none when the relative level exceeds the
module depth (the source skips the node with continue). -/
def resolveImportFrom (currentParts : List String) (module : Option String)
    (level : Nat) : Option String :=
  let m := module.getD ""
  if level > 0 then
    if currentParts.length < level then
      none
    else
      let basePath := pyJoin "." (pyDropLast currentParts level)
      if m ≠ "" then
        some (if basePath ≠ "" then basePath ++ "." ++ m else m)
      else
        some basePath
  else
    some m

/-- PythonAnalyzer._analyze_imports: walk the tree; ast.Import stores
asname-or-name to dotted name; ast.ImportFrom resolves the module relative to
the current module path and stores asname-or-name to full_module.name. -/
def analyzeImports (currentModule : String) (tree : List PyStmt) :
    List (String × String) :=
  let currentParts := pySplit '.' currentModule
  (pyWalkStmts tree).foldl
    (fun imports s =>
      match s with
      | .importStmt names =>
        names.foldl (fun d a => dictInsert (a.2.getD a.1) a.1 d) imports
      | .importFrom module level names =>
        match resolveImportFrom currentParts module level with
        | none => imports
        | some fullModule =>
          names.foldl
            (fun d a =>
              if fullModule ≠ "" then
                dictInsert (a.2.getD a.1) (fullModule ++ "." ++ a.1) d
              else
                dictInsert (a.2.getD a.1) a.1 d)
            imports
      | _ => imports)
    []

/-! ## PythonAnalyzer.analyze_function and analyze_class

The FunctionInfo and ClassInfo records below carry the fields the claims
inspect; source_code, docstring, returns and the call list are not mentioned
by any claim and are left out of the embedding. -/
structure FunctionInfo where
  name : String
  full_name : String
  signature : String
  type : String
  params : List String
  param_types : List String
  return_types : List String
  start_line : Nat
  class_name : Option String
  deriving DecidableEq, Repr

structure ClassInfo where
  name : String
  full_name : String
  node_type : String
  methods : List FunctionInfo
  start_line : Nat
  deriving DecidableEq, Repr

/-- PythonAnalyzer._get_function_params: positional args, then *vararg, then
keyword-only args, then **kwarg. -/
def getFunctionParams (a : PyArgs) : List String :=
  a.args.map (·.name)
    ++ (match a.vararg with | some v => ["*" ++ v] | none => [])
    ++ a.kwonlyargs.map (·.name)
    ++ (match a.kwarg with | some k => ["**" ++ k] | none => [])

/-- PythonAnalyzer.analyze_function: param types from the positional args with
Any as the fallback, return type from the annotation or Any, full name below
the module path, signature of shape name(paramTypes) -> returnType, type
function, start line from the node. -/
def analyzeFunction (modulePath : String) (name : String) (a : PyArgs)
    (returns : Option String) (lineno : Nat) : FunctionInfo :=
  let paramTypes := a.args.map fun arg => arg.annot.getD "Any"
  let returnTypes := [returns.getD "Any"]
  let paramSignature := pyJoin ", " paramTypes
  let returnTypeStr := returnTypes.headD "Any"
  { name := name
    full_name := modulePath ++ "." ++ name
    signature := name ++ "(" ++ paramSignature ++ ") -> " ++ returnTypeStr
    type := "function"
    params := getFunctionParams a
    param_types := paramTypes
    return_types := returnTypes
    start_line := lineno
    class_name := none }

/-- PythonAnalyzer.analyze_class applied to one ast.ClassDef: every direct
body item that is a function definition, of any visibility, becomes a method
with type method, class_name set and full_name below the class full name; the
node type is interface when ABC is among the bases, else class. -/
def analyzeClass (modulePath : String) (name : String) (bases : List String)
    (lineno : Nat) (body : List PyStmt) : ClassInfo :=
  let fullName := modulePath ++ "." ++ name
  let methods := body.filterMap fun item =>
    match item with
    | .funcDef mName mArgs mReturns mLineno _ =>
      let m := analyzeFunction modulePath mName mArgs mReturns mLineno
      some { m with
              type := "method"
              class_name := some name
              full_name := fullName ++ "." ++ mName }
    | _ => none
  { name := name
    full_name := fullName
    node_type := if bases.contains "ABC" then "interface" else "class"
    methods := methods
    start_line := lineno }

/-- Statements of the class bodies of the walked tree, the class_methods set
of analyze_file. Membership tests on it use pyStmtEq, mirroring the identity
semantics of the Python set of AST nodes (line numbers keep textually equal
definitions at different places distinct). -/
def classMethodStmts (tree : List PyStmt) : List PyStmt :=
  (pyWalkStmts tree).flatMap fun s =>
    match s with
    | .classDef _ _ _ body => body.filter fun item =>
        match item with
        | .funcDef _ _ _ _ _ => true
        | _ => false
    | _ => []

structure FileInfo where
  file_path : String
  functions : List FunctionInfo
  classes : List ClassInfo
  deriving DecidableEq, Repr

/-- PythonAnalyzer.analyze_file on a parsed tree: first pass collects every
ast.ClassDef of the walk and records its direct function definitions as class
methods; second pass collects every walked function definition that is not a
recorded class method. No name-based filtering happens in either pass. -/
def pyAnalyzeFile (relPath : String) (tree : List PyStmt) : FileInfo :=
  let modulePath := getModulePath relPath
  let classes := (pyWalkStmts tree).filterMap fun s =>
    match s with
    | .classDef name bases lineno body =>
      some (analyzeClass modulePath name bases lineno body)
    | _ => none
  let classMethods := classMethodStmts tree
  let functions := (pyWalkStmts tree).filterMap fun s =>
    match s with
    | .funcDef name args returns lineno _ =>
      if classMethods.any (fun m => pyStmtEq s m) then
        none
      else
        some (analyzeFunction modulePath name args returns lineno)
    | _ => none
  { file_path := relPath, functions := functions, classes := classes }

/-! ## GoAnalyzer (tree-sitter based)

A shallow model of the tree-sitter nodes that GoAnalyzer.analyze_file visits.
A node carries its tree-sitter type, its decoded text and its children. Only
the name extraction and the collection into the top-level functions list are
claim-relevant; signatures, parameters and struct handling are not inspected
by any claim. -/
inductive GoNode where
  | mk (ntype : String) (text : String) (children : List GoNode)
  deriving Repr

def GoNode.ntype : GoNode → String
  | .mk t _ _ => t

def GoNode.text : GoNode → String
  | .mk _ x _ => x

def GoNode.children : GoNode → List GoNode
  | .mk _ _ cs => cs

/-- GoAnalyzer._get_function_name: text of the first child of type
identifier, or the empty string. -/
def getGoFunctionName (n : GoNode) : String :=
  ((n.children.find? fun c => c.ntype = "identifier").map GoNode.text).getD ""

/-- GoAnalyzer._get_method_name: text of the first child of type
field_identifier, or the empty string. -/
def getGoMethodName (n : GoNode) : String :=
  ((n.children.find? fun c => c.ntype = "field_identifier").map GoNode.text).getD ""

structure GoFn where
  name : String
  type : String
  deriving DecidableEq, Repr

/-- GoAnalyzer._create_function_node: none when no name could be extracted. -/
def createGoFunctionNode (n : GoNode) : Option GoFn :=
  if getGoFunctionName n = "" then none
  else some { name := getGoFunctionName n, type := "function" }

/-- GoAnalyzer._create_method_node: none when no name could be extracted. -/
def createGoMethodNode (n : GoNode) : Option GoFn :=
  if getGoMethodName n = "" then none
  else some { name := getGoMethodName n, type := "method" }

mutual

/-- GoAnalyzer.analyze_file visit_node, restricted to what feeds the
functions list: function declarations and method declarations whose extracted
name does not start with an underscore; then the children are visited. -/
def goVisitNode : GoNode → List GoFn
  | .mk t x cs =>
    (if t = "function_declaration" then
      (if pyStartsWith '_' (getGoFunctionName (.mk t x cs)) = false then
        (createGoFunctionNode (.mk t x cs)).toList
      else [])
    else if t = "method_declaration" then
      (if pyStartsWith '_' (getGoMethodName (.mk t x cs)) = false then
        (createGoMethodNode (.mk t x cs)).toList
      else [])
    else []) ++ goVisitList cs

/-- Visit of a child list. -/
def goVisitList : List GoNode → List GoFn
  | [] => []
  | c :: cs => goVisitNode c ++ goVisitList cs

end

/-! ## Claim C9: file reading and parse failures

The analyzer opens the file with open(path, r, encoding=utf-8) and no errors
argument, so decoding is strict: a malformed byte raises UnicodeDecodeError.
The surrounding try block of analyze_file catches every exception and returns
None. Below, a strict UTF-8 decoder models the read and an abstract parser
oracle models ast.parse; a lenient decoder modelled from the words of the
spec (malformed bytes replaced, never fatal) is given for comparison. -/
/-- Strict UTF-8 decoding of a byte list, as performed by the Python open
call with encoding utf-8 and no errors argument: none on any malformed
sequence (stray continuation byte, truncated sequence, overlong encoding,
surrogate range, or a code point beyond U+10FFFF). -/
def decodeUtf8Strict : List Nat → Option (List Char)
  | [] => some []
  | b :: rest =>
    if b < 0x80 then
      (decodeUtf8Strict rest).map fun cs => Char.ofNat b :: cs
    else if b < 0xC0 then
      none
    else if b < 0xE0 then
      match rest with
      | c₁ :: rest₁ =>
        if 0x80 ≤ c₁ ∧ c₁ < 0xC0 then
          let cp := (b - 0xC0) * 64 + (c₁ - 0x80)
          if cp < 0x80 then none
          else (decodeUtf8Strict rest₁).map fun cs => Char.ofNat cp :: cs
        else none
      | _ => none
    else if b < 0xF0 then
      match rest with
      | c₁ :: c₂ :: rest₂ =>
        if (0x80 ≤ c₁ ∧ c₁ < 0xC0) ∧ (0x80 ≤ c₂ ∧ c₂ < 0xC0) then
          let cp := (b - 0xE0) * 4096 + (c₁ - 0x80) * 64 + (c₂ - 0x80)
          if cp < 0x800 ∨ (0xD800 ≤ cp ∧ cp ≤ 0xDFFF) then none
          else (decodeUtf8Strict rest₂).map fun cs => Char.ofNat cp :: cs
        else none
      | _ => none
    else if b < 0xF8 then
      match rest with
      | c₁ :: c₂ :: c₃ :: rest₃ =>
        if (0x80 ≤ c₁ ∧ c₁ < 0xC0) ∧ (0x80 ≤ c₂ ∧ c₂ < 0xC0) ∧
            (0x80 ≤ c₃ ∧ c₃ < 0xC0) then
          let cp := (b - 0xF0) * 262144 + (c₁ - 0x80) * 4096 +
            (c₂ - 0x80) * 64 + (c₃ - 0x80)
          if cp < 0x10000 ∨ 0x10FFFF < cp then none
          else (decodeUtf8Strict rest₃).map fun cs => Char.ofNat cp :: cs
        else none
      | _ => none
    else
      none

/-- Helper for the lenient decoder, structurally recursive on a fuel that the
wrapper sets to the byte count (every step consumes at least one byte, so the
fuel is never exhausted). -/
def decodeUtf8LenientAux : Nat → List Nat → List Char
  | 0, _ => []
  | _ + 1, [] => []
  | fuel + 1, b :: rest =>
    if b < 0x80 then
      Char.ofNat b :: decodeUtf8LenientAux fuel rest
    else if 0xC0 ≤ b ∧ b < 0xE0 then
      match rest with
      | c₁ :: rest₁ =>
        if 0x80 ≤ c₁ ∧ c₁ < 0xC0 then
          let cp := (b - 0xC0) * 64 + (c₁ - 0x80)
          if cp < 0x80 then Char.ofNat 0xFFFD :: decodeUtf8LenientAux fuel rest₁
          else Char.ofNat cp :: decodeUtf8LenientAux fuel rest₁
        else Char.ofNat 0xFFFD :: decodeUtf8LenientAux fuel (c₁ :: rest₁)
      | _ => [Char.ofNat 0xFFFD]
    else if 0xE0 ≤ b ∧ b < 0xF0 then
      match rest with
      | c₁ :: c₂ :: rest₂ =>
        if (0x80 ≤ c₁ ∧ c₁ < 0xC0) ∧ (0x80 ≤ c₂ ∧ c₂ < 0xC0) then
          let cp := (b - 0xE0) * 4096 + (c₁ - 0x80) * 64 + (c₂ - 0x80)
          if cp < 0x800 ∨ (0xD800 ≤ cp ∧ cp ≤ 0xDFFF) then
            Char.ofNat 0xFFFD :: decodeUtf8LenientAux fuel rest₂
          else Char.ofNat cp :: decodeUtf8LenientAux fuel rest₂
        else Char.ofNat 0xFFFD :: decodeUtf8LenientAux fuel (c₁ :: c₂ :: rest₂)
      | _ => [Char.ofNat 0xFFFD]
    else
      Char.ofNat 0xFFFD :: decodeUtf8LenientAux fuel rest

/-- Modelled from the spec: lenient UTF-8 decoding in which every malformed
byte is replaced by U+FFFD and decoding never fails, the behavior of the
Python errors=replace mode the spec describes. -/
def decodeUtf8Lenient (bytes : List Nat) : List Char :=
  decodeUtf8LenientAux bytes.length bytes

/-- PythonAnalyzer.analyze_file seen from its failure handling: read the
bytes with strict UTF-8 decoding, parse with the external ast.parse (an
oracle from decoded text to an optional tree), analyze the tree on success;
any exception, a decode error included, is caught and none is returned. -/
def pyAnalyzeFileBytes (relPath : String) (bytes : List Nat)
    (parse : List Char → Option (List PyStmt)) : Option FileInfo :=
  match decodeUtf8Strict bytes with
  | none => none
  | some content =>
    match parse content with
    | none => none
    | some tree => some (pyAnalyzeFile relPath tree)

/-- Modelled from the spec: the analyzer the claim describes, reading with
lenient decoding so that decoding is never fatal. -/
def pyAnalyzeFileBytesLenient (relPath : String) (bytes : List Nat)
    (parse : List Char → Option (List PyStmt)) : Option FileInfo :=
  match parse (decodeUtf8Lenient bytes) with
  | none => none
  | some tree => some (pyAnalyzeFile relPath tree)

/-! ## Claim C2: the folder walk (FolderAstAnalyzer.analyze_folder)

FileAstAnalyzer defines EXCLUDED_DIRS; FolderAstAnalyzer does not, yet its
analyze_folder reads self.EXCLUDED_DIRS, so the first entry that does not
start with a dot raises AttributeError, which the blanket except of
analyze_folder turns into a None return for that folder. The attribute lookup
is modelled as an Option that is none because the attribute does not exist on
the class that performs the lookup. -/
/-- FileAstAnalyzer.EXCLUDED_DIRS, the exclusion set of the specification. -/
def fileAnalyzerExcludedDirs : List String :=
  ["__pycache__", ".git", ".idea", ".vscode", "venv", "node_modules", "dist",
   "build", "target", ".pytest_cache", ".mypy_cache", ".coverage",
   "__tests__", "tests"]

/-- The attribute lookup self.EXCLUDED_DIRS inside
FolderAstAnalyzer.analyze_folder: the instance is a FolderAstAnalyzer and
that class defines no EXCLUDED_DIRS, so the lookup yields nothing and raises
AttributeError at run time. -/
def folderAnalyzerExcludedDirsAttr : Option (List String) := none

/-- Python str.endswith for one suffix. -/
def pyEndsWith (suffix s : String) : Bool :=
  suffix.data.isSuffixOf s.data

/-- The extension filter of the walk: item_path.endswith for the five
recognized extensions. The additional not item_path.startswith of two
underscores tests the absolute path, which never starts with underscores for
an absolute base directory, and is immaterial to every claim. -/
def recognizedSourceFile (name : String) : Bool :=
  [".py", ".java", ".go", ".cpp", ".c"].any fun e => pyEndsWith e name

inductive Fs where
  | file (name : String)
  | dir (name : String) (entries : List Fs)
  deriving Repr

def Fs.name : Fs → String
  | .file n => n
  | .dir n _ => n

/-- FolderInfo as built by the walk; files carries the names of the entries
whose file analysis returned a result. -/
inductive FolderInfoT where
  | mk (name : String) (path : String) (files : List String)
      (subfolders : List FolderInfoT)
  deriving Repr

/-- os.path.relpath of the walked folder against the base: the dot for the
base itself, else the joined segments. -/
def relPathOfSegs (segs : List String) : String :=
  if segs = [] then "." else pyJoin "/" segs

mutual

/-- Loop body of FolderAstAnalyzer.analyze_folder over the directory
entries, abstracted over the result of the self.EXCLUDED_DIRS attribute
lookup. Entries starting with a dot are skipped; for every other entry the
code consults the attribute: when the lookup fails (none) an AttributeError
aborts the whole folder; otherwise excluded names are skipped, recognized
files are analyzed via the oracle and kept when it returns a result, and
subdirectories are walked recursively with a None result skipped. -/
def folderEntriesWalk (excludedAttr : Option (List String))
    (analyzeOk : String → Bool) (segs : List String) :
    List Fs → Except Unit (List String × List FolderInfoT)
  | [] => .ok ([], [])
  | e :: rest =>
    if pyStartsWith '.' (Fs.name e) then
      folderEntriesWalk excludedAttr analyzeOk segs rest
    else
      match excludedAttr with
      | none => .error ()
      | some excluded =>
        if Fs.name e ∈ excluded then
          folderEntriesWalk excludedAttr analyzeOk segs rest
        else
          match folderVisitEntry excludedAttr analyzeOk segs e,
              folderEntriesWalk excludedAttr analyzeOk segs rest with
          | _, .error u => .error u
          | (fs₀, sub), .ok (fs, sds) => .ok (fs₀ ++ fs, sub.toList ++ sds)

/-- Handling of one non-skipped entry: a recognized file is analyzed and
kept when the analyzer returns a result; a subdirectory is walked by a
recursive analyze_folder call whose own except turns any failure into None,
which the caller then skips. -/
def folderVisitEntry (excludedAttr : Option (List String))
    (analyzeOk : String → Bool) (segs : List String) :
    Fs → List String × Option FolderInfoT
  | .file n =>
    (if recognizedSourceFile n ∧ analyzeOk n then [n] else [], none)
  | .dir n es =>
    ([],
      match folderEntriesWalk excludedAttr analyzeOk (segs ++ [n]) es with
      | .error _ => none
      | .ok (fs, sds) =>
        some (FolderInfoT.mk n (relPathOfSegs (segs ++ [n])) fs sds))

end

/-- FolderAstAnalyzer.analyze_folder as written: the EXCLUDED_DIRS lookup is
the failing attribute access of the source; any raised exception is caught by
the blanket except which returns None. -/
def folderWalk (analyzeOk : String → Bool) (segs : List String) (name : String)
    (entries : List Fs) : Option FolderInfoT :=
  match folderEntriesWalk folderAnalyzerExcludedDirsAttr analyzeOk segs entries with
  | .error _ => none
  | .ok (fs, sds) => some (.mk name (relPathOfSegs segs) fs sds)

/-- Modelled from the spec: the walk the specification describes, in which
the exclusion set of FileAstAnalyzer.EXCLUDED_DIRS is available to the
folder walker, exclusions and dot entries are skipped and a FolderInfo tree
is returned. -/
def folderWalkIntended (analyzeOk : String → Bool) (segs : List String)
    (name : String) (entries : List Fs) : Option FolderInfoT :=
  match folderEntriesWalk (some fileAnalyzerExcludedDirs) analyzeOk segs entries with
  | .error _ => none
  | .ok (fs, sds) => some (.mk name (relPathOfSegs segs) fs sds)

/-! ## Claim C1: delete_file_nodes in the Neo4j client

A labelled property graph: nodes carry an identity, a label and the
properties the deletion logic reads (project_id, file_path); edges carry
their endpoints by identity and an edge type. -/
structure GNode where
  nid : Nat
  label : String
  project_id : String
  file_path : Option String
  deriving DecidableEq, Repr

structure GEdge where
  src : Nat
  etype : String
  dst : Nat
  deriving DecidableEq, Repr

structure Graph where
  nodes : List GNode
  edges : List GEdge
  deriving DecidableEq, Repr

def isFileNodeFor (p fp : String) (n : GNode) : Bool :=
  n.label = "File" && n.project_id = p && n.file_path = some fp

/-- Neo4jClient.delete_file_nodes. The Cypher matches the pattern
(f:File with project_id and file_path)-[:CONTAINS]->(n), a single CONTAINS
hop, then DETACH DELETE n and, once per matched row, DETACH DELETE f. So the
direct CONTAINS children of the File node are removed; the File node itself
is removed only when at least one row matched, that is only when it has an
outgoing CONTAINS edge; DETACH removes every edge incident to a removed
node. Nothing reaches nodes two CONTAINS hops away (class methods). -/
def deleteFileNodes (p fp : String) (g : Graph) : Graph :=
  let fileIds := (g.nodes.filter (isFileNodeFor p fp)).map GNode.nid
  let childIds := (g.edges.filter fun e =>
    e.etype = "CONTAINS" && fileIds.contains e.src).map GEdge.dst
  let matchedFileIds := fileIds.filter fun f =>
    g.edges.any fun e => e.etype = "CONTAINS" && e.src = f
  let deletedIds := childIds ++ matchedFileIds
  { nodes := g.nodes.filter fun n => !(deletedIds.contains n.nid)
    edges := g.edges.filter fun e =>
      !(deletedIds.contains e.src) && !(deletedIds.contains e.dst) }

/-- Graph of a project with one file a.py holding a class with one method,
plus a caller of that method from another file. -/
def c1Graph : Graph :=
  { nodes :=
      [{ nid := 1, label := "File", project_id := "p", file_path := some "a.py" },
       { nid := 2, label := "Class", project_id := "p", file_path := some "a.py" },
       { nid := 3, label := "Function", project_id := "p", file_path := some "a.py" },
       { nid := 4, label := "Function", project_id := "p", file_path := some "other.py" }]
    edges :=
      [{ src := 1, etype := "CONTAINS", dst := 2 },
       { src := 2, etype := "CONTAINS", dst := 3 },
       { src := 4, etype := "CALLS", dst := 3 }] }

/-- Graph with a File node that contains nothing. -/
def c1GraphEmptyFile : Graph :=
  { nodes :=
      [{ nid := 1, label := "File", project_id := "p", file_path := some "b.py" }]
    edges := [] }

/-! ## Claim C7: the summarizer entry point

The ContentType enum (codebase/codesummary/models/model.py and
codeast/models/model.py) has exactly six members: folder, file, class,
struct, interface, function. There is no code_chunk member. -/
inductive ContentType where
  | FOLDER
  | FILE
  | CLASS
  | STRUCT
  | INTERFACE
  | FUNCTION
  deriving DecidableEq, Repr

/-- Value string of each enum member. -/
def ContentType.value : ContentType → String
  | .FOLDER => "folder"
  | .FILE => "file"
  | .CLASS => "class"
  | .STRUCT => "struct"
  | .INTERFACE => "interface"
  | .FUNCTION => "function"

/-- The attribute lookup ContentType.CODE_CHUNK performed by
RepoCodeChunksMgmt.generate_summary: the enum defines no such member, so the
lookup yields nothing and raises AttributeError at run time. -/
def contentTypeCodeChunk : Option ContentType := none

structure LLMResponse where
  content : String
  success : Bool
  deriving DecidableEq, Repr

/-- The failure string of CodeSummary.llm_summarize, an f-string around the
content type; its exact rendering of the enum member varies with the Python
version and only its non-emptiness matters to any claim. -/
def summaryPlaceholder (ct : ContentType) : String :=
  "无法生成" ++ ct.value ++ "摘要"

/-- CodeSummary.llm_summarize seen from its result: each of the six enum
members selects its fixed prompt pair (the selection always succeeds, the
else branch returning the empty string is unreachable for a ContentType
value); the LLM call either raises (modelled as error), in which case the
except returns the placeholder, or returns a response whose content is
returned when success is set and the placeholder otherwise. -/
def llmSummarize (_ct : ContentType) (llm : Except Unit LLMResponse) : String :=
  match llm with
  | .error _ => summaryPlaceholder _ct
  | .ok r => if r.success then r.content else summaryPlaceholder _ct

/-- RepoCodeChunksMgmt.generate_summary: evaluates
CodeSummary.llm_summarize(source, ContentType.CODE_CHUNK); the attribute
lookup fails before the LLM is ever consulted, the except catches the
AttributeError and the function returns the empty string. -/
def generateChunkSummary (llm : Except Unit LLMResponse) : String :=
  match contentTypeCodeChunk with
  | none => ""
  | some ct => llmSummarize ct llm

/-! ## The chunk repository and the vectorize pipeline

Relational rows of the three tables, as created by the management classes.
Vectors are carried as integer lists; only their count and length are ever
inspected by the code. The truncate helper of the llm utils and the
embedding model are external collaborators passed as oracles. -/
abbrev Vec := List Int

structure FnRow where
  id : String
  repo_id : String
  source_code : String
  file_path : String
  start_line : Nat
  end_line : Nat
  function_name : String
  function_signature : String
  summary : Option String
  is_summarized : Bool
  is_vectorized : Bool
  deriving DecidableEq, Repr

structure ChunkRow where
  id : String
  repo_id : String
  source_code : String
  file_path : String
  start_line : Nat
  end_line : Nat
  summary : Option String
  is_summarized : Bool
  is_source_vectorized : Bool
  is_summary_vectorized : Bool
  deriving DecidableEq, Repr

/-- Python truthiness of an optional string: None and the empty string are
falsy; the filters of the vectorize methods use it. -/
def pyTruthy : Option String → Bool
  | none => false
  | some s => s ≠ ""

/-- The embedding model collaborator: configs max_tokens and the encode call
returning an optional vector matrix with a token count. -/
structure EmbModel where
  maxTokens : Nat
  encode : List String → Option (List Vec) × Nat

/-- EMBEDDING_BATCH_SIZE of the constants module. -/
def EMBEDDING_BATCH_SIZE : Nat := 16

/-- The batch loop of the vectorize methods: texts are processed in batches
of EMBEDDING_BATCH_SIZE, each truncated to max_tokens - 10 and encoded; a
batch whose encode yields nothing (or no vectors) is skipped with continue
and the surviving matrices are concatenated. Structurally recursive on a
fuel that the wrapper sets to the text count (each step consumes at least
one text). -/
def embedBatchesAux (m : EmbModel) (trunc : String → Nat → String) :
    Nat → List String → List Vec
  | 0, _ => []
  | _ + 1, [] => []
  | fuel + 1, texts =>
    let batch := texts.take EMBEDDING_BATCH_SIZE
    let restTexts := texts.drop EMBEDDING_BATCH_SIZE
    let truncated := batch.map fun t => trunc t (m.maxTokens - 10)
    let step :=
      match (m.encode truncated).1 with
      | none => []
      | some vs => if vs.length = 0 then [] else vs
    step ++ embedBatchesAux m trunc fuel restTexts

/-- All content vectors produced for the given texts. -/
def embedBatches (m : EmbModel) (trunc : String → Nat → String)
    (texts : List String) : List Vec :=
  embedBatchesAux m trunc texts.length texts

/-- Keys of a Python dict built by inserting the listed keys in order: first
occurrences, in order of first appearance. -/
def pyDictKeysAux (seen : List String) : List String → List String
  | [] => []
  | k :: rest =>
    if seen.contains k then pyDictKeysAux seen rest
    else k :: pyDictKeysAux (seen ++ [k]) rest

def pyDictKeys (l : List String) : List String :=
  pyDictKeysAux [] l

/-- One vectorize method, abstracted over the table: which rows are kept
(the summary filter for functions and classes and the chunk summary method,
everything for chunk sources), which text is embedded, how a vector record
is built and which space the repo maps to. Each concrete method below
instantiates this with the record and space of its table, mirroring the
three structurally identical methods of the source. -/
structure VectorizePlan (Row Rec : Type) where
  keep : Row → Bool
  text : Row → String
  rowId : Row → String
  rowRepo : Row → String
  mkRecord : String → Vec → Row → Rec
  spaceOf : String → String

/-- Pairs of one repo group: the kept rows zipped with their vectors,
restricted to the repo, exactly the repo_groups dict entry of the source. -/
def groupPairs {Row Rec : Type} (P : VectorizePlan Row Rec) (kept : List Row)
    (vectors : List Vec) (rid : String) : List (Row × Vec) :=
  (kept.zip vectors).filter fun p => P.rowRepo p.1 = rid

/-- vector_size of one group: the length of the first vector of the group
(None, modelled as zero, when the group is empty). -/
def groupVectorSize {Row Rec : Type} (P : VectorizePlan Row Rec)
    (kept : List Row) (vectors : List Vec) (rid : String) : Nat :=
  ((groupPairs P kept vectors rid).head?.map fun p => p.2.length).getD 0

/-- Records of one group; every record carries the q column named after the
vector_size of the first vector of the group, as in the source. -/
def groupRecords {Row Rec : Type} (P : VectorizePlan Row Rec) (kept : List Row)
    (vectors : List Vec) (rid : String) : List Rec :=
  (groupPairs P kept vectors rid).map fun p =>
    P.mkRecord ("q_" ++ toString (groupVectorSize P kept vectors rid) ++ "_vec")
      p.2 p.1

/-- The common body of RepoFunctionsMgmt.vectorize,
RepoCodeChunksMgmt.vectorize_source and vectorize_summary: empty input and a
missing embedding model yield zero; rows are filtered by the plan (the
summary truthiness filter, or no filter), their texts embedded in batches,
and nothing happens when no vectors came back or the vector count differs
from the kept row count; otherwise rows are grouped by repo_id and, per
group, records are built and bulk-inserted into the group space; exactly
when insert_records reports no failed identifier, a flag update is issued
for every row of the group and the group size is added to the success count.
Returns the success count and the identifiers whose flag update was issued. -/
def vectorizeCore {Row Rec : Type} (P : VectorizePlan Row Rec)
    (model : Option EmbModel) (trunc : String → Nat → String)
    (insert : String → List Rec → List String) (rows : List Row) :
    Nat × List String :=
  if rows.isEmpty then (0, [])
  else
    match model with
    | none => (0, [])
    | some m =>
      let kept := rows.filter P.keep
      if kept.isEmpty then (0, [])
      else
        let vectors := embedBatches m trunc (kept.map P.text)
        if vectors.length = 0 then (0, [])
        else if vectors.length ≠ kept.length then (0, [])
        else
          let keys := pyDictKeys (kept.map P.rowRepo)
          let perGroup := keys.map fun rid =>
            let pairs := groupPairs P kept vectors rid
            let records := groupRecords P kept vectors rid
            if ¬ records.isEmpty ∧ groupVectorSize P kept vectors rid ≠ 0 then
              let failed := P.spaceOf rid |> fun space => insert space records
              if failed.isEmpty then (pairs.length, pairs.map fun p => P.rowId p.1)
              else (0, [])
            else (0, [])
          ((perGroup.map Prod.fst).sum, perGroup.flatMap Prod.snd)

structure FnRecord where
  id : String
  repo_id : String
  file_path : String
  start_line : Nat
  end_line : Nat
  function_name : String
  function_signature : String
  summary : Option String
  qColumn : String
  vec : Vec
  deriving DecidableEq, Repr

structure ChunkSourceRecord where
  id : String
  repo_id : String
  source_code : String
  file_path : String
  start_line : Nat
  end_line : Nat
  qColumn : String
  vec : Vec
  deriving DecidableEq, Repr

structure ChunkSummaryRecord where
  id : String
  repo_id : String
  file_path : String
  start_line : Nat
  end_line : Nat
  summary : Option String
  qColumn : String
  vec : Vec
  deriving DecidableEq, Repr

/-- Plan of RepoFunctionsMgmt.vectorize: only rows with a truthy summary are
kept, the summary is the embedded text, records carry the function metadata
and the destination space is repo_{repo_id}_function. -/
def fnPlan : VectorizePlan FnRow FnRecord where
  keep f := pyTruthy f.summary
  text f := f.summary.getD ""
  rowId f := f.id
  rowRepo f := f.repo_id
  mkRecord qcol v f :=
    { id := f.id, repo_id := f.repo_id, file_path := f.file_path,
      start_line := f.start_line, end_line := f.end_line,
      function_name := f.function_name,
      function_signature := f.function_signature, summary := f.summary,
      qColumn := qcol, vec := v }
  spaceOf rid := "repo_" ++ rid ++ "_function"

/-- Plan of RepoCodeChunksMgmt.vectorize_source: every chunk is kept, the
source code is the embedded text, records carry the source code and the
destination space is repo_{repo_id}_chunk_source. -/
def chunkSourcePlan : VectorizePlan ChunkRow ChunkSourceRecord where
  keep _ := true
  text c := c.source_code
  rowId c := c.id
  rowRepo c := c.repo_id
  mkRecord qcol v c :=
    { id := c.id, repo_id := c.repo_id, source_code := c.source_code,
      file_path := c.file_path, start_line := c.start_line,
      end_line := c.end_line, qColumn := qcol, vec := v }
  spaceOf rid := "repo_" ++ rid ++ "_chunk_source"

/-- Plan of RepoCodeChunksMgmt.vectorize_summary: only chunks with a truthy
summary are kept, the summary is the embedded text, records carry the
summary and the destination space is repo_{repo_id}_chunk_summary. -/
def chunkSummaryPlan : VectorizePlan ChunkRow ChunkSummaryRecord where
  keep c := pyTruthy c.summary
  text c := c.summary.getD ""
  rowId c := c.id
  rowRepo c := c.repo_id
  mkRecord qcol v c :=
    { id := c.id, repo_id := c.repo_id, file_path := c.file_path,
      start_line := c.start_line, end_line := c.end_line,
      summary := c.summary, qColumn := qcol, vec := v }
  spaceOf rid := "repo_" ++ rid ++ "_chunk_summary"

/-- RepoFunctionsMgmt.vectorize. -/
def vectorizeFns (model : Option EmbModel) (trunc : String → Nat → String)
    (insert : String → List FnRecord → List String) (functions : List FnRow) :
    Nat × List String :=
  vectorizeCore fnPlan model trunc insert functions

/-- RepoCodeChunksMgmt.vectorize_source. -/
def vectorizeChunkSources (model : Option EmbModel)
    (trunc : String → Nat → String)
    (insert : String → List ChunkSourceRecord → List String)
    (chunks : List ChunkRow) : Nat × List String :=
  vectorizeCore chunkSourcePlan model trunc insert chunks

/-- RepoCodeChunksMgmt.vectorize_summary. -/
def vectorizeChunkSummaries (model : Option EmbModel)
    (trunc : String → Nat → String)
    (insert : String → List ChunkSummaryRecord → List String)
    (chunks : List ChunkRow) : Nat × List String :=
  vectorizeCore chunkSummaryPlan model trunc insert chunks

/-- Embedding model used by the claim C3 witness: every text maps to a
two-dimensional vector. -/
def c3Model : EmbModel :=
  { maxTokens := 100, encode := fun ts => (some (ts.map fun _ => [1, 2]), 5) }

def c3Fn1 : FnRow :=
  { id := "f1", repo_id := "r", source_code := "def f(): pass",
    file_path := "a.py", start_line := 1, end_line := 2,
    function_name := "f", function_signature := "f() -> Any",
    summary := some "adds", is_summarized := true, is_vectorized := false }

def c3Chunk1 : ChunkRow :=
  { id := "c1", repo_id := "r", source_code := "x = 1", file_path := "a.py",
    start_line := 1, end_line := 1, summary := none, is_summarized := false,
    is_source_vectorized := false, is_summary_vectorized := false }

/-! ## Claim C8: creation state and the vectorized-implies-summarized invariant -/
structure FnCreateData where
  repo_id : String
  source_code : String
  file_path : String
  start_line : Nat
  end_line : Nat
  function_name : String
  function_signature : String
  deriving DecidableEq, Repr

/-- RepoFunctionsMgmt.create: the inserted row carries summary None and both
flags false. -/
def newFnRow (newId : String) (d : FnCreateData) : FnRow :=
  { id := newId, repo_id := d.repo_id, source_code := d.source_code,
    file_path := d.file_path, start_line := d.start_line,
    end_line := d.end_line, function_name := d.function_name,
    function_signature := d.function_signature, summary := none,
    is_summarized := false, is_vectorized := false }

structure ChunkCreateData where
  repo_id : String
  source_code : String
  file_path : String
  start_line : Nat
  end_line : Nat
  deriving DecidableEq, Repr

/-- RepoCodeChunksMgmt.create: the inserted row carries summary None and all
three flags false. -/
def newChunkRow (newId : String) (d : ChunkCreateData) : ChunkRow :=
  { id := newId, repo_id := d.repo_id, source_code := d.source_code,
    file_path := d.file_path, start_line := d.start_line,
    end_line := d.end_line, summary := none, is_summarized := false,
    is_source_vectorized := false, is_summary_vectorized := false }

/-- FunctionDataUpdate: a field left at None is absent from the patch; the
update method applies only the present fields. -/
structure FnPatch where
  summary : Option String
  is_summarized : Option Bool
  is_vectorized : Option Bool
  deriving DecidableEq, Repr

/-- Field application step of RepoFunctionsMgmt.update: every present patch
field overwrites the row field; summary can never be set back to None. -/
def applyFnPatch (row : FnRow) (p : FnPatch) : FnRow :=
  { row with
    summary := match p.summary with | some s => some s | none => row.summary
    is_summarized := p.is_summarized.getD row.is_summarized
    is_vectorized := p.is_vectorized.getD row.is_vectorized }

structure ChunkPatch where
  summary : Option String
  is_summarized : Option Bool
  is_source_vectorized : Option Bool
  is_summary_vectorized : Option Bool
  deriving DecidableEq, Repr

/-- Field application step of RepoCodeChunksMgmt.update. -/
def applyChunkPatch (row : ChunkRow) (p : ChunkPatch) : ChunkRow :=
  { row with
    summary := match p.summary with | some s => some s | none => row.summary
    is_summarized := p.is_summarized.getD row.is_summarized
    is_source_vectorized := p.is_source_vectorized.getD row.is_source_vectorized
    is_summary_vectorized := p.is_summary_vectorized.getD row.is_summary_vectorized }

/-- The functions and classes invariant of the claim: is_vectorized implies
is_summarized and a non-null summary. -/
def fnRowInv (r : FnRow) : Bool :=
  !r.is_vectorized || (r.is_summarized && r.summary.isSome)

/-- The chunks invariant of the claim: is_summary_vectorized implies
is_summarized and a non-null summary. -/
def chunkRowInv (c : ChunkRow) : Bool :=
  !c.is_summary_vectorized || (c.is_summarized && c.summary.isSome)

/-- RepoFunctionsMgmt._get_unvectorized: rows of the repo with
is_vectorized false, is_summarized true and a non-null summary, up to the
limit. -/
def getUnvectorizedFns (rid : String) (db : List FnRow) (limit : Nat) :
    List FnRow :=
  (db.filter fun r =>
    !r.is_vectorized && r.is_summarized && r.summary.isSome && r.repo_id = rid).take
    limit

/-- The per-row update calls issued by vectorize on full insert success,
applied to the table: every row whose identifier received an update gets
is_vectorized true. -/
def applyFnFlips (flips : List String) (db : List FnRow) : List FnRow :=
  db.map fun r =>
    if flips.contains r.id then
      applyFnPatch r { summary := none, is_summarized := none,
                       is_vectorized := some true }
    else r

/-- RepoFunctionsMgmt.scan_and_vectorize: fetch the unvectorized rows and
vectorize them; the flag updates of the success branches are applied to the
table. -/
def scanAndVectorizeFns (rid : String) (db : List FnRow)
    (model : Option EmbModel) (trunc : String → Nat → String)
    (insert : String → List FnRecord → List String) (limit : Nat) :
    Nat × List FnRow :=
  let unvectorized := getUnvectorizedFns rid db limit
  if unvectorized.isEmpty then (0, db)
  else
    let res := vectorizeFns model trunc insert unvectorized
    (res.1, applyFnFlips res.2 db)

/-- RepoCodeChunksMgmt._get_summary_unvectorized: rows of the repo with
is_summary_vectorized false and is_summarized true, up to the limit. -/
def getSummaryUnvectorizedChunks (rid : String) (db : List ChunkRow)
    (limit : Nat) : List ChunkRow :=
  (db.filter fun c =>
    !c.is_summary_vectorized && c.is_summarized && c.repo_id = rid).take limit

/-- The per-row update calls issued by vectorize_summary on full insert
success, applied to the table. -/
def applyChunkSummaryFlips (flips : List String) (db : List ChunkRow) :
    List ChunkRow :=
  db.map fun c =>
    if flips.contains c.id then
      applyChunkPatch c { summary := none, is_summarized := none,
                          is_source_vectorized := none,
                          is_summary_vectorized := some true }
    else c

/-- RepoCodeChunksMgmt.scan_and_vectorize_summary. -/
def scanAndVectorizeChunkSummaries (rid : String) (db : List ChunkRow)
    (model : Option EmbModel) (trunc : String → Nat → String)
    (insert : String → List ChunkSummaryRecord → List String) (limit : Nat) :
    Nat × List ChunkRow :=
  let unvectorized := getSummaryUnvectorizedChunks rid db limit
  if unvectorized.isEmpty then (0, db)
  else
    let res := vectorizeChunkSummaries model trunc insert unvectorized
    (res.1, applyChunkSummaryFlips res.2 db)

def c8Data : FnCreateData :=
  { repo_id := "r", source_code := "def f(): pass", file_path := "a.py",
    start_line := 1, end_line := 2, function_name := "f",
    function_signature := "f() -> Any" }

/-! ## Claim C10: failure semantics of the management operations

Each operation wraps its body in try/except: the body is modelled as an
Except value over the fallible backend steps (queries and commits carry
outcome flags; the vector store search is an Except oracle), the operation
itself is the body with the except handler applied, which rolls the
transaction back (the table is returned unchanged) and returns the neutral
default of that operation; create alone re-raises after the rollback. The
helper _delete_vector_record_by_id swallows every failure internally and
touches no relational row, so it does not appear in the failure analysis. -/
/-- RepoCodeChunksMgmt.create: insert and commit; on failure roll back and
re-raise. -/
def chunkCreateOp (db : List ChunkRow) (newId : String) (d : ChunkCreateData)
    (commitOk : Bool) : Except Unit ChunkRow × List ChunkRow :=
  if commitOk then (.ok (newChunkRow newId d), db ++ [newChunkRow newId d])
  else (.error (), db)

/-- RepoFunctionsMgmt.create. -/
def fnCreateOp (db : List FnRow) (newId : String) (d : FnCreateData)
    (commitOk : Bool) : Except Unit FnRow × List FnRow :=
  if commitOk then (.ok (newFnRow newId d), db ++ [newFnRow newId d])
  else (.error (), db)

/-- get_by_id: its own except turns a failed query into None. -/
def getChunkById (db : List ChunkRow) (i : String) (queryOk : Bool) :
    Option ChunkRow :=
  if queryOk then db.find? fun r => r.id = i else none

/-- get_by_id for the functions table. -/
def getFnById (db : List FnRow) (i : String) (queryOk : Bool) : Option FnRow :=
  if queryOk then db.find? fun r => r.id = i else none

/-- Body of RepoCodeChunksMgmt.update: a missing row returns None; the
applied patch is committed, a failed commit raises. -/
def chunkUpdateBody (db : List ChunkRow) (i : String) (p : ChunkPatch)
    (queryOk commitOk : Bool) : Except Unit (Option ChunkRow × List ChunkRow) :=
  match getChunkById db i queryOk with
  | none => .ok (none, db)
  | some row =>
    if commitOk then
      .ok (some (applyChunkPatch row p),
        db.map fun r => if r.id = i then applyChunkPatch row p else r)
    else .error ()

/-- RepoCodeChunksMgmt.update: the except rolls back and returns None, the
table unchanged. -/
def chunkUpdateOp (db : List ChunkRow) (i : String) (p : ChunkPatch)
    (queryOk commitOk : Bool) : Option ChunkRow × List ChunkRow :=
  match chunkUpdateBody db i p queryOk commitOk with
  | .ok r => r
  | .error _ => (none, db)

/-- Body of RepoFunctionsMgmt.delete: a missing row returns False; when the
row is vectorized the vector record deletion helper runs first (it never
raises and touches no relational row); the row deletion is committed, a
failed commit raises. -/
def fnDeleteBody (db : List FnRow) (i : String) (queryOk commitOk : Bool) :
    Except Unit (Bool × List FnRow) :=
  match getFnById db i queryOk with
  | none => .ok (false, db)
  | some _ =>
    if commitOk then .ok (true, db.filter fun r => ¬ r.id = i)
    else .error ()

/-- RepoFunctionsMgmt.delete: the except rolls back and returns False, the
table unchanged. -/
def fnDeleteOp (db : List FnRow) (i : String) (queryOk commitOk : Bool) :
    Bool × List FnRow :=
  match fnDeleteBody db i queryOk commitOk with
  | .ok r => r
  | .error _ => (false, db)

/-- RepoFunctionsMgmt.scan_and_vectorize: _get_unvectorized catches its own
failures and returns the empty list (scanOk false); an empty scan returns
zero; otherwise vectorize runs, itself returning zero and no flag updates on
any internal failure. -/
def fnScanAndVectorizeOp (rid : String) (db : List FnRow)
    (model : Option EmbModel) (trunc : String → Nat → String)
    (insert : String → List FnRecord → List String) (limit : Nat)
    (scanOk : Bool) : Nat × List FnRow :=
  let unvectorized := if scanOk then getUnvectorizedFns rid db limit else []
  if unvectorized.isEmpty then (0, db)
  else
    let res := vectorizeFns model trunc insert unvectorized
    (res.1, applyFnFlips res.2 db)

/-- One row of the fields map of a vector search result; id mirrors
field_data.get of the source and may be absent. The score column is a
backend float and is not inspected by any claim. -/
structure SearchFieldData where
  id : Option String
  source_code : String
  file_path : String
  start_line : Nat
  end_line : Nat
  deriving DecidableEq, Repr

structure SearchResultT where
  id : String
  source_code : String
  file_path : String
  start_line : Nat
  end_line : Nat
  deriving DecidableEq, Repr

structure SearchResponseT where
  results : List SearchResultT
  total : Nat
  deriving DecidableEq, Repr

/-- RepoCodeChunksMgmt.search_by_source_vector: a missing repo_id, a missing
embedding model or a failed query embedding return the empty response; a
raised backend search is caught by the except and returns the empty
response; on success the rows with a truthy id are assembled, the total
passed through. -/
def searchBySourceVectorOp (repoId : Option String) (modelOk : Bool)
    (queryVec : Option Vec)
    (searchRes : Except Unit (Nat × List SearchFieldData)) : SearchResponseT :=
  match repoId with
  | none => { results := [], total := 0 }
  | some _ =>
    if modelOk = false then { results := [], total := 0 }
    else
      match queryVec with
      | none => { results := [], total := 0 }
      | some _ =>
        match searchRes with
        | .error _ => { results := [], total := 0 }
        | .ok (total, fields) =>
          { results := fields.filterMap fun fd =>
              match fd.id with
              | none => none
              | some i =>
                if i = "" then none
                else some { id := i, source_code := fd.source_code,
                            file_path := fd.file_path,
                            start_line := fd.start_line,
                            end_line := fd.end_line }
            total := total }

theorem mem_pyWalkStmts (l : List PyStmt) (x : PyStmt) (hx : x ∈ l) :
    x ∈ pyWalkStmts l := by
  induction l with
  | nil => cases hx
  | cons s rest ih =>
    rw [pyWalkStmts]
    rcases List.mem_cons.mp hx with h | h
    · subst h
      apply List.mem_append_left
      cases x <;> simp [pyWalkStmt]
    · exact List.mem_append_right _ (ih h)

theorem getModulePath_pkg_m : getModulePath "pkg/m.py" = "pkg.m" := by decide

theorem getModulePath_nested :
    getModulePath "app/models/user.py" = "app.models.user" := by decide

theorem getModulePath_root : getModulePath "m.py" = "m" := by decide

theorem analyzeImports_level_two :
    analyzeImports "a.b.c" [.importFrom (some "pkg") 2 [("x", none)]] =
      [("x", "a.pkg.x")] := by decide

theorem analyzeImports_level_one :
    analyzeImports "a.b.c" [.importFrom (some "x") 1 [("y", none)]] =
      [("y", "a.b.x.y")] := by decide

theorem analyzeImports_plain_as :
    analyzeImports "a" [.importStmt [("x.y", some "z")]] = [("z", "x.y")] := by
  decide

theorem analyzeImports_level_exceeds :
    analyzeImports "a" [.importFrom (some "pkg") 2 [("x", none)]] = [] := by
  decide

theorem goVisitList_eq_flatMap (cs : List GoNode) :
    goVisitList cs = cs.flatMap goVisitNode := by
  induction cs with
  | nil => rfl
  | cons c rest ih => rw [goVisitList, ih, List.flatMap_cons]

/-! ## Claim C6: Python function extraction on pkg/m.py -/
/-- Claim C6. Analyzing the Python file pkg/m.py whose content is
def calculate_sum(a:int,b:int)->int: return a+b yields exactly one
FunctionInfo with name calculate_sum, full_name pkg.m.calculate_sum,
signature calculate_sum(int, int) -> int, type function, params [a, b],
param_types [int, int], return_types [int] and start_line 1. The body of the
definition is immaterial to every extracted field. -/
theorem python_function_extraction_c6 :
    pyAnalyzeFile "pkg/m.py"
        [.funcDef "calculate_sum"
          { args := [{ name := "a", annot := some "int" },
                     { name := "b", annot := some "int" }],
            vararg := none, kwonlyargs := [], kwarg := none }
          (some "int") 1 [.passStmt]] =
      { file_path := "pkg/m.py"
        functions := [{ name := "calculate_sum"
                        full_name := "pkg.m.calculate_sum"
                        signature := "calculate_sum(int, int) -> int"
                        type := "function"
                        params := ["a", "b"]
                        param_types := ["int", "int"]
                        return_types := ["int"]
                        start_line := 1
                        class_name := none }]
        classes := [] } := by
  decide

/-! ## Claim C4: underscore filtering of top-level items -/
/-- Claim C4 counterexample. The Python analyzer applies no name-based
filtering: analyzing a file that defines a top-level function named _helper
yields a functions list that still contains _helper, contradicting the claim
that every top-level function or class whose name starts with an underscore
is absent from the resulting lists. -/
theorem python_underscore_not_filtered_c4 :
    "_helper" ∈
      ((pyAnalyzeFile "m.py"
          [.funcDef "_helper"
              { args := [], vararg := none, kwonlyargs := [], kwarg := none }
              none 1 [.passStmt],
           .classDef "C" [] 2
             [.funcDef "m"
                { args := [], vararg := none, kwonlyargs := [], kwarg := none }
                none 3 [.passStmt]]]).functions.map
        FunctionInfo.name) ∧
    "_Hidden" ∈
      ((pyAnalyzeFile "m.py"
          [.classDef "_Hidden" [] 1 [.passStmt]]).classes.map ClassInfo.name) := by
  decide

theorem string_append_dot_ne (s t : String) : s ++ "." ++ t ≠ "" := by
  intro h
  have hd := congrArg String.data h
  simp [String.data_append] at hd

theorem go_no_underscore_aux (k : Nat) :
    ∀ (n : GoNode), sizeOf n ≤ k →
      ∀ fn ∈ goVisitNode n, pyStartsWith '_' fn.name = false := by
  induction k with
  | zero =>
    intro n h
    exfalso
    obtain ⟨t, x, cs⟩ := n
    simp at h
  | succ k ih =>
    intro n hn fn hfn
    obtain ⟨t, x, cs⟩ := n
    rw [goVisitNode] at hfn
    rcases List.mem_append.mp hfn with h | h
    · by_cases ht : t = "function_declaration"
      · rw [if_pos ht] at h
        by_cases hf : pyStartsWith '_' (getGoFunctionName (GoNode.mk t x cs)) = false
        · rw [if_pos hf] at h
          simp only [createGoFunctionNode] at h
          split at h
          · simp at h
          · simp at h
            subst h
            simpa using hf
        · rw [if_neg hf] at h; cases h
      · rw [if_neg ht] at h
        by_cases hm : t = "method_declaration"
        · rw [if_pos hm] at h
          by_cases hf : pyStartsWith '_' (getGoMethodName (GoNode.mk t x cs)) = false
          · rw [if_pos hf] at h
            simp only [createGoMethodNode] at h
            split at h
            · simp at h
            · simp at h
              subst h
              simpa using hf
          · rw [if_neg hf] at h; cases h
        · rw [if_neg hm] at h; cases h
    · rw [goVisitList_eq_flatMap] at h
      rcases List.mem_flatMap.mp h with ⟨c, hc, hfnc⟩
      apply ih c _ fn hfnc
      have h1 : sizeOf c < sizeOf cs := List.sizeOf_lt_of_mem hc
      have h2 : sizeOf (GoNode.mk t x cs) = 1 + sizeOf t + sizeOf x + sizeOf cs := by
        simp
      omega

/-- Claim C4 as amended. The Go analyzer omits top-level function and method
declarations whose extracted name starts with an underscore from the
functions list; the Python analyzer applies no underscore filtering at all:
every walked function definition that is not a recorded class method, and
every walked class definition, is collected whatever its name; and every
function definition in the direct body of a collected class, of any
visibility, appears in that class methods list. -/
theorem underscore_filtering_amended_c4 :
    (∀ (n : GoNode) (fn : GoFn), fn ∈ goVisitNode n →
      pyStartsWith '_' fn.name = false)
    ∧ (∀ (relPath : String) (tree : List PyStmt) (name : String) (args : PyArgs)
        (returns : Option String) (lineno : Nat) (body : List PyStmt),
        PyStmt.funcDef name args returns lineno body ∈ tree →
        (classMethodStmts tree).any
            (fun m => pyStmtEq (PyStmt.funcDef name args returns lineno body) m)
          = false →
        analyzeFunction (getModulePath relPath) name args returns lineno
          ∈ (pyAnalyzeFile relPath tree).functions)
    ∧ (∀ (relPath : String) (tree : List PyStmt) (name : String)
        (bases : List String) (lineno : Nat) (body : List PyStmt),
        PyStmt.classDef name bases lineno body ∈ tree →
        analyzeClass (getModulePath relPath) name bases lineno body
          ∈ (pyAnalyzeFile relPath tree).classes)
    ∧ (∀ (modulePath name : String) (bases : List String) (lineno : Nat)
        (body : List PyStmt) (mName : String) (mArgs : PyArgs)
        (mRet : Option String) (mLine : Nat) (mBody : List PyStmt),
        PyStmt.funcDef mName mArgs mRet mLine mBody ∈ body →
        ({ analyzeFunction modulePath mName mArgs mRet mLine with
            type := "method", class_name := some name,
            full_name := modulePath ++ "." ++ name ++ "." ++ mName }
          ∈ (analyzeClass modulePath name bases lineno body).methods)) := by
  refine ⟨?_, ?_, ?_, ?_⟩
  · intro n fn hfn
    exact go_no_underscore_aux (sizeOf n) n le_rfl fn hfn
  · intro relPath tree name args returns lineno body hmem hfilter
    simp only [pyAnalyzeFile]
    apply List.mem_filterMap.mpr
    refine ⟨PyStmt.funcDef name args returns lineno body, mem_pyWalkStmts _ _ hmem, ?_⟩
    simp [hfilter]
  · intro relPath tree name bases lineno body hmem
    simp only [pyAnalyzeFile]
    apply List.mem_filterMap.mpr
    exact ⟨PyStmt.classDef name bases lineno body, mem_pyWalkStmts _ _ hmem, rfl⟩
  · intro modulePath name bases lineno body mName mArgs mRet mLine mBody hmem
    simp only [analyzeClass]
    apply List.mem_filterMap.mpr
    exact ⟨PyStmt.funcDef mName mArgs mRet mLine mBody, hmem, rfl⟩

/-- Witness for the amended claim C4 at concrete inputs: a Go tree with one
kept function and one underscore-filtered function, and a Python file with an
underscore function plus a class with an underscore method. -/
theorem underscore_filtering_amended_c4_witness :
    pyStartsWith '_'
        (GoFn.name { name := "Run", type := "function" }) = false
    ∧ analyzeFunction (getModulePath "m.py") "_helper"
          { args := [], vararg := none, kwonlyargs := [], kwarg := none } none 1
        ∈ (pyAnalyzeFile "m.py"
            [.funcDef "_helper"
              { args := [], vararg := none, kwonlyargs := [], kwarg := none }
              none 1 [.passStmt]]).functions
    ∧ analyzeClass (getModulePath "m.py") "_Hidden" [] 1 [.passStmt]
        ∈ (pyAnalyzeFile "m.py" [.classDef "_Hidden" [] 1 [.passStmt]]).classes
    ∧ ({ analyzeFunction "pkg.m" "_m"
            { args := [], vararg := none, kwonlyargs := [], kwarg := none }
            none 3 with
          type := "method", class_name := some "C",
          full_name := "pkg.m" ++ "." ++ "C" ++ "." ++ "_m" }
        ∈ (analyzeClass "pkg.m" "C" [] 2
            [.funcDef "_m"
              { args := [], vararg := none, kwonlyargs := [], kwarg := none }
              none 3 [.passStmt]]).methods) := by
  refine ⟨?_, ?_, ?_, ?_⟩
  · exact underscore_filtering_amended_c4.1
      (GoNode.mk "function_declaration" ""
        [GoNode.mk "identifier" "Run" []])
      { name := "Run", type := "function" } (by decide)
  · exact underscore_filtering_amended_c4.2.1 "m.py"
      [.funcDef "_helper"
        { args := [], vararg := none, kwonlyargs := [], kwarg := none }
        none 1 [.passStmt]]
      "_helper" { args := [], vararg := none, kwonlyargs := [], kwarg := none }
      none 1 [.passStmt] (List.mem_singleton.mpr rfl) (by decide)
  · exact underscore_filtering_amended_c4.2.2.1 "m.py"
      [.classDef "_Hidden" [] 1 [.passStmt]] "_Hidden" [] 1 [.passStmt]
      (List.mem_singleton.mpr rfl)
  · exact underscore_filtering_amended_c4.2.2.2 "pkg.m" "C" [] 2
      [.funcDef "_m"
        { args := [], vararg := none, kwonlyargs := [], kwarg := none }
        none 3 [.passStmt]]
      "_m" { args := [], vararg := none, kwonlyargs := [], kwarg := none }
      none 3 [.passStmt] (List.mem_singleton.mpr rfl)

/-! ## Claim C5: relative import resolution -/
/-- Claim C5. For a module M whose dot-separated parts are ps, a
relative import of level L with 0 < L and L at most the depth takes the base
module to be ps with the last L components removed; importing x from the
double-dotted pkg inside a.b.c maps x to a.pkg.x; importing y from the
dotted x inside a.b.c maps y to a.b.x.y; a plain aliased module
importation of x.y as z maps z to x.y; and a relative import whose level
exceeds the module depth is skipped and produces no entry. -/
theorem relative_import_resolution_c5 :
    (∀ (M : String) (ps : List String) (L : Nat) (m x : String),
      pySplit '.' M = ps → 0 < L → L ≤ ps.length → m ≠ "" →
      analyzeImports M [.importFrom (some m) L [(x, none)]] =
        [(x, (if pyJoin "." (pyDropLast ps L) ≠ "" then
                pyJoin "." (pyDropLast ps L) ++ "." ++ m
              else m) ++ "." ++ x)])
    ∧ analyzeImports "a.b.c" [.importFrom (some "pkg") 2 [("x", none)]] =
        [("x", "a.pkg.x")]
    ∧ analyzeImports "a.b.c" [.importFrom (some "x") 1 [("y", none)]] =
        [("y", "a.b.x.y")]
    ∧ (∀ (M n z : String), analyzeImports M [.importStmt [(n, some z)]] = [(z, n)])
    ∧ (∀ (M : String) (ps : List String) (L : Nat) (m : Option String)
        (names : List (String × Option String)),
      pySplit '.' M = ps → ps.length < L →
      analyzeImports M [.importFrom m L names] = []) := by
  refine ⟨?_, by decide, by decide, ?_, ?_⟩
  · intro M ps L m x hsplit hL hLlen hm
    simp only [analyzeImports, pyWalkStmts, pyWalkStmt, List.append_nil,
      List.foldl_cons, List.foldl_nil, hsplit]
    rw [resolveImportFrom]
    simp only [Option.getD_some]
    rw [if_pos hL, if_neg (by omega : ¬ ps.length < L), if_pos hm]
    simp only [List.foldl_cons, List.foldl_nil]
    by_cases hbp : pyJoin "." (pyDropLast ps L) = ""
    · rw [if_neg (not_not_intro hbp), if_pos hm]
      simp [dictInsert]
    · rw [if_pos hbp, if_pos (string_append_dot_ne _ _)]
      simp [dictInsert]
  · intro M n z
    simp [analyzeImports, pyWalkStmts, pyWalkStmt, dictInsert]
  · intro M ps L m names hsplit hlt
    simp only [analyzeImports, pyWalkStmts, pyWalkStmt, List.append_nil,
      List.foldl_cons, List.foldl_nil, hsplit]
    rw [resolveImportFrom]
    rw [if_pos (by omega : 0 < L), if_pos hlt]

/-- Witness for claim C5 at concrete inputs. -/
theorem relative_import_resolution_c5_witness :
    analyzeImports "a.b.c" [.importFrom (some "sub.pkg") 2 [("x", none)]] =
      [(("x" : String),
        (if pyJoin "." (pyDropLast ["a", "b", "c"] 2) ≠ "" then
            pyJoin "." (pyDropLast ["a", "b", "c"] 2) ++ "." ++ "sub.pkg"
          else "sub.pkg") ++ "." ++ "x")]
    ∧ analyzeImports "m" [.importStmt [("os.path", some "p")]] = [("p", "os.path")]
    ∧ analyzeImports "a" [.importFrom (some "pkg") 2 [("x", none)]] = [] := by
  refine ⟨?_, ?_, ?_⟩
  · exact relative_import_resolution_c5.1 "a.b.c" ["a", "b", "c"] 2 "sub.pkg" "x"
      (by decide) (by decide) (by decide) (by decide)
  · exact relative_import_resolution_c5.2.2.2.1 "m" "os.path" "p"
  · exact relative_import_resolution_c5.2.2.2.2 "a" ["a"] 2 (some "pkg")
      [("x", none)] (by decide) (by decide)

/-- Claim C9 counterexample. Decoding is not lenient: on the one-byte file
0xFF the strict reader fails, analyze_file returns none, while the
spec-modelled lenient analyzer on the same bytes returns a FileInfo (with a
parser that accepts the replaced text). So malformed bytes are not replaced;
a decode error aborts the file like a parse failure. -/
theorem lenient_decoding_refuted_c9 :
    decodeUtf8Strict [0xFF] = none
    ∧ pyAnalyzeFileBytes "m.py" [0xFF] (fun _ => some []) = none
    ∧ decodeUtf8Lenient [0xFF] = [Char.ofNat 0xFFFD]
    ∧ pyAnalyzeFileBytesLenient "m.py" [0xFF] (fun _ => some []) =
        some (pyAnalyzeFile "m.py" []) := by
  refine ⟨by decide, ?_, by decide, ?_⟩
  · rfl
  · rfl

/-- Claim C9 as amended. The analyzer reads the file with strict UTF-8
decoding: a malformed byte raises a decode error which the analyzer catches,
returning none for that file exactly as it does on a parse failure, and the
pipeline continues with other files; when decoding and parsing both succeed
the analysis result is returned. -/
theorem decode_and_parse_failures_c9 (relPath : String) (bytes : List Nat)
    (parse : List Char → Option (List PyStmt)) :
    (decodeUtf8Strict bytes = none → pyAnalyzeFileBytes relPath bytes parse = none)
    ∧ (∀ content, decodeUtf8Strict bytes = some content → parse content = none →
        pyAnalyzeFileBytes relPath bytes parse = none)
    ∧ (∀ content tree, decodeUtf8Strict bytes = some content →
        parse content = some tree →
        pyAnalyzeFileBytes relPath bytes parse = some (pyAnalyzeFile relPath tree)) := by
  refine ⟨?_, ?_, ?_⟩
  · intro h; simp [pyAnalyzeFileBytes, h]
  · intro content h hp; simp [pyAnalyzeFileBytes, h, hp]
  · intro content tree h hp; simp [pyAnalyzeFileBytes, h, hp]

/-- Witness for the amended claim C9: the decode-failure case at byte 0xFF,
the parse-failure case on the valid one-byte file a, and the success case on
an empty file. -/
theorem decode_and_parse_failures_c9_witness :
    pyAnalyzeFileBytes "m.py" [0xFF] (fun _ => some []) = none
    ∧ pyAnalyzeFileBytes "m.py" [0x61] (fun _ => none) = none
    ∧ pyAnalyzeFileBytes "m.py" [] (fun _ => some []) =
        some (pyAnalyzeFile "m.py" []) := by
  refine ⟨?_, ?_, ?_⟩
  · exact (decode_and_parse_failures_c9 "m.py" [0xFF] (fun _ => some [])).1
      (by decide)
  · exact (decode_and_parse_failures_c9 "m.py" [0x61] (fun _ => none)).2.1
      [Char.ofNat 0x61] (by decide) rfl
  · exact (decode_and_parse_failures_c9 "m.py" [] (fun _ => some [])).2.2
      [] [] (by decide) rfl

theorem folderWalk_nondot_entry_none :
    folderWalk (fun _ => true) [] "proj" [.file "main.py"] = none := rfl

theorem folderWalk_dot_only_some :
    folderWalk (fun _ => true) [] "proj" [.file ".hidden"] =
      some (.mk "proj" "." [] []) := rfl

theorem folderEntriesWalk_error_of_nondot (analyzeOk : String → Bool)
    (segs : List String) :
    ∀ (entries : List Fs) (e : Fs), e ∈ entries →
      pyStartsWith '.' (Fs.name e) = false →
      folderEntriesWalk folderAnalyzerExcludedDirsAttr analyzeOk segs entries =
        .error () := by
  intro entries
  induction entries with
  | nil => intro e he; cases he
  | cons x rest ih =>
    intro e he hdot
    rw [folderEntriesWalk.eq_def]
    dsimp only
    by_cases hx : pyStartsWith '.' (Fs.name x) = true
    · rw [if_pos hx]
      rcases List.mem_cons.mp he with rfl | hmem
      · rw [hx] at hdot; cases hdot
      · exact ih e hmem hdot
    · rw [if_neg hx]
      rfl

/-- Claim C2 (evaluation of the code at the failing input and the general
failure law). analyze_folder reads self.EXCLUDED_DIRS, an attribute that
FolderAstAnalyzer does not define, so for every readable directory holding at
least one entry whose name does not start with a dot, the AttributeError is
caught by the blanket except and the walk returns None instead of a
FolderInfo tree; only a directory whose entries all start with a dot (or an
empty one) yields a tree, with the root path being the dot. The intended
walk modelled from the spec returns the tree with the exclusions applied on
the same failing input. -/
theorem folder_walk_attribute_error_c2 :
    folderWalk (fun _ => true) [] "proj"
        [.file "main.py", .dir "app" [.file "util.py"]] = none
    ∧ (∀ (analyzeOk : String → Bool) (segs : List String) (name : String)
        (entries : List Fs) (e : Fs), e ∈ entries →
        pyStartsWith '.' (Fs.name e) = false →
        folderWalk analyzeOk segs name entries = none)
    ∧ folderWalk (fun _ => true) [] "proj" [.file ".hidden"] =
        some (.mk "proj" "." [] [])
    ∧ folderWalkIntended (fun _ => true) [] "proj"
        [.file "main.py", .dir "__pycache__" [.file "x.py"], .dir ".git" [],
         .dir "app" [.file "util.py"]] =
      some (.mk "proj" "." ["main.py"]
        [.mk "app" "app" ["util.py"] []]) := by
  refine ⟨rfl, ?_, rfl, rfl⟩
  intro analyzeOk segs name entries e he hdot
  unfold folderWalk
  rw [folderEntriesWalk_error_of_nondot analyzeOk segs entries e he hdot]

/-- Witness for claim C2 at a concrete input: the walk of a folder holding
one ordinary source file returns None. -/
theorem folder_walk_attribute_error_c2_witness :
    folderWalk (fun _ => true) ["src"] "src" [.file "a.py"] = none :=
  folder_walk_attribute_error_c2.2.1 (fun _ => true) ["src"] "src"
    [.file "a.py"] (.file "a.py") (List.mem_singleton.mpr rfl) rfl

/-- Claim C1 (evaluation of the code at the failing input). On a file whose
class has a method, delete_file_nodes removes the File node and the Class
node but leaves the method Function node, which carries project_id p and
file_path a.py, still in the graph together with its incoming cross-file
CALLS edge; and on a File node that contains nothing, the File node itself
survives because the Cypher pattern match yields no row. Both contradict the
claim that every node reachable by CONTAINS from the File, and the File
itself, are deleted and that no Class or Function node with the file path
remains. -/
theorem delete_file_nodes_one_hop_c1 :
    ({ nid := 3, label := "Function", project_id := "p",
        file_path := some "a.py" } : GNode)
        ∈ (deleteFileNodes "p" "a.py" c1Graph).nodes
    ∧ ({ src := 4, etype := "CALLS", dst := 3 } : GEdge)
        ∈ (deleteFileNodes "p" "a.py" c1Graph).edges
    ∧ ({ nid := 1, label := "File", project_id := "p",
          file_path := some "a.py" } : GNode)
        ∉ (deleteFileNodes "p" "a.py" c1Graph).nodes
    ∧ ({ nid := 2, label := "Class", project_id := "p",
          file_path := some "a.py" } : GNode)
        ∉ (deleteFileNodes "p" "a.py" c1Graph).nodes
    ∧ deleteFileNodes "p" "b.py" c1GraphEmptyFile = c1GraphEmptyFile := by
  decide

/-- Claim C7 counterexample. Summarizing a code chunk never produces the LLM
text: with an LLM that succeeds and returns a non-empty summary, the chunk
repository generate_summary still returns the empty string, because
ContentType has no CODE_CHUNK member; so llm_summarize does not accept the
kind code_chunk and chunk summaries are never non-empty. -/
theorem code_chunk_kind_missing_c7 :
    generateChunkSummary (.ok { content := "Adds two numbers.", success := true })
        = ""
    ∧ ({ content := "Adds two numbers.", success := true } : LLMResponse).content
        ≠ ""
    ∧ contentTypeCodeChunk = none := by
  refine ⟨rfl, by decide, rfl⟩

/-- Claim C7 as amended. llm_summarize accepts exactly the six kinds folder,
file, class, struct, interface and function, returning the assistant text on
success and a non-empty placeholder string when the LLM fails or raises;
there is no code_chunk kind, and the chunk repository generate_summary
always returns the empty string, even when the LLM succeeds. -/
theorem llm_summarize_amended_c7 (ct : ContentType) (r : LLMResponse) :
    llmSummarize ct (.ok r) = (if r.success then r.content else summaryPlaceholder ct)
    ∧ llmSummarize ct (.error ()) = summaryPlaceholder ct
    ∧ summaryPlaceholder ct ≠ ""
    ∧ (∀ llm, generateChunkSummary llm = "") := by
  refine ⟨rfl, rfl, ?_, fun _ => rfl⟩
  cases ct <;> decide

theorem mem_pyDictKeysAux (x : String) :
    ∀ (l seen : List String), x ∈ l → x ∈ seen ∨ x ∈ pyDictKeysAux seen l := by
  intro l
  induction l with
  | nil => intro seen hx; cases hx
  | cons k rest ih =>
    intro seen hx
    rw [pyDictKeysAux]
    rcases List.mem_cons.mp hx with rfl | hmem
    · by_cases hseen : seen.contains x = true
      · exact Or.inl (by simpa using hseen)
      · rw [if_neg hseen]
        exact Or.inr (List.mem_cons_self _ _)
    · by_cases hseen : seen.contains k = true
      · rw [if_pos hseen]
        exact ih seen hmem
      · rw [if_neg hseen]
        rcases ih (seen ++ [k]) hmem with h | h
        · rcases List.mem_append.mp h with h | h
          · exact Or.inl h
          · exact Or.inr (by rw [List.mem_singleton.mp h]; exact List.mem_cons_self _ _)
        · exact Or.inr (List.mem_cons_of_mem _ h)

theorem mem_pyDictKeys (x : String) (l : List String) (hx : x ∈ l) :
    x ∈ pyDictKeys l := by
  rcases mem_pyDictKeysAux x l [] hx with h | h
  · cases h
  · exact h

theorem exists_zip_of_mem {α β : Type} :
    ∀ (l₁ : List α) (l₂ : List β) (a : α), l₁.length = l₂.length → a ∈ l₁ →
      ∃ b, (a, b) ∈ l₁.zip l₂ := by
  intro l₁
  induction l₁ with
  | nil => intro l₂ a _ ha; cases ha
  | cons x rest ih =>
    intro l₂ a hlen ha
    cases l₂ with
    | nil => cases hlen
    | cons y ys =>
      rcases List.mem_cons.mp ha with rfl | hmem
      · exact ⟨y, List.mem_cons_self _ _⟩
      · rcases ih ys a (by simpa using hlen) hmem with ⟨b, hb⟩
        exact ⟨b, List.mem_cons_of_mem _ hb⟩

theorem vectorizeCore_flips_iff {Row Rec : Type} (P : VectorizePlan Row Rec)
    (m : EmbModel) (trunc : String → Nat → String)
    (insert : String → List Rec → List String) (rows : List Row)
    (hnodup : ((rows.filter P.keep).map P.rowId).Nodup)
    (r : Row) (hr : r ∈ rows) (hk : P.keep r = true) :
    P.rowId r ∈ (vectorizeCore P (some m) trunc insert rows).2 ↔
      ((embedBatches m trunc ((rows.filter P.keep).map P.text)).length
          = (rows.filter P.keep).length
        ∧ groupVectorSize P (rows.filter P.keep)
            (embedBatches m trunc ((rows.filter P.keep).map P.text))
            (P.rowRepo r) ≠ 0
        ∧ insert (P.spaceOf (P.rowRepo r))
            (groupRecords P (rows.filter P.keep)
              (embedBatches m trunc ((rows.filter P.keep).map P.text))
              (P.rowRepo r)) = []) := by
  have hrk : r ∈ rows.filter P.keep := List.mem_filter.mpr ⟨hr, hk⟩
  have hrows : rows.isEmpty = false := by
    rw [List.isEmpty_eq_false]
    intro h
    rw [h] at hr
    cases hr
  have hkeptne : (rows.filter P.keep).isEmpty = false := by
    rw [List.isEmpty_eq_false]
    intro h
    rw [h] at hrk
    cases hrk
  rw [vectorizeCore]
  rw [hrows]
  simp only [Bool.false_eq_true, if_false, hkeptne]
  set kept := rows.filter P.keep with hkept
  set vectors := embedBatches m trunc (kept.map P.text) with hvec
  by_cases hlen : vectors.length = kept.length
  · have hkne : kept ≠ [] := List.isEmpty_eq_false.mp hkeptne
    have hlen0 : ¬ vectors.length = 0 := by
      rw [hlen]
      intro h
      exact hkne (List.length_eq_zero.mp h)
    rw [if_neg hlen0, if_neg (not_not_intro hlen)]
    dsimp only
    constructor
    · intro hmem
      rcases List.mem_flatMap.mp hmem with ⟨pr, hpr, hin⟩
      rcases List.mem_map.mp hpr with ⟨rid, hridkeys, rfl⟩
      by_cases hc1 : ¬ (groupRecords P kept vectors rid).isEmpty = true ∧
          groupVectorSize P kept vectors rid ≠ 0
      · rw [if_pos hc1] at hin
        by_cases hc2 :
            (insert (P.spaceOf rid) (groupRecords P kept vectors rid)).isEmpty = true
        · rw [if_pos hc2] at hin
          rcases List.mem_map.mp hin with ⟨p, hp, hpid⟩
          obtain ⟨a, b⟩ := p
          have hpair := List.mem_filter.mp hp
          have hz := List.of_mem_zip hpair.1
          have haeq : a = r := List.inj_on_of_nodup_map hnodup hz.1 hrk hpid
          have hrid : P.rowRepo r = rid := by
            have hcond := hpair.2
            rw [haeq] at hcond
            simpa using hcond
          rw [← hrid] at hc1 hc2
          exact ⟨hlen, hc1.2, List.isEmpty_iff.mp hc2⟩
        · rw [if_neg hc2] at hin
          cases hin
      · rw [if_neg hc1] at hin
        cases hin
    · rintro ⟨-, hgvs, hins⟩
      apply List.mem_flatMap.mpr
      refine ⟨_, List.mem_map.mpr ⟨P.rowRepo r,
        mem_pyDictKeys _ _ (List.mem_map.mpr ⟨r, hrk, rfl⟩), rfl⟩, ?_⟩
      obtain ⟨v, hv⟩ := exists_zip_of_mem kept vectors r hlen.symm hrk
      have hpmem : (r, v) ∈ groupPairs P kept vectors (P.rowRepo r) :=
        List.mem_filter.mpr ⟨hv, by simp⟩
      have hrecne : ¬ (groupRecords P kept vectors (P.rowRepo r)).isEmpty = true := by
        rw [List.isEmpty_iff]
        intro h
        rw [groupRecords] at h
        have := List.map_eq_nil_iff.mp h
        rw [this] at hpmem
        cases hpmem
      rw [if_pos ⟨hrecne, hgvs⟩, if_pos (List.isEmpty_iff.mpr hins)]
      exact List.mem_map.mpr ⟨(r, v), hpmem, rfl⟩
  · have hres :
        (if vectors.length = 0 then ((0 : Nat), ([] : List String))
          else if vectors.length ≠ kept.length then (0, [])
          else ((List.map Prod.fst
                (List.map (fun rid =>
                  if ¬ (groupRecords P kept vectors rid).isEmpty = true ∧
                      groupVectorSize P kept vectors rid ≠ 0 then
                    if (insert (P.spaceOf rid)
                        (groupRecords P kept vectors rid)).isEmpty = true then
                      ((groupPairs P kept vectors rid).length,
                        List.map (fun p => P.rowId p.1)
                          (groupPairs P kept vectors rid))
                    else (0, [])
                  else (0, []))
                  (pyDictKeys (List.map P.rowRepo kept)))).sum,
              (List.map (fun rid =>
                  if ¬ (groupRecords P kept vectors rid).isEmpty = true ∧
                      groupVectorSize P kept vectors rid ≠ 0 then
                    if (insert (P.spaceOf rid)
                        (groupRecords P kept vectors rid)).isEmpty = true then
                      ((groupPairs P kept vectors rid).length,
                        List.map (fun p => P.rowId p.1)
                          (groupPairs P kept vectors rid))
                    else (0, [])
                  else (0, []))
                  (pyDictKeys (List.map P.rowRepo kept))).flatMap Prod.snd)).2
          = ([] : List String) := by
      by_cases h0 : vectors.length = 0
      · rw [if_pos h0]
      · rw [if_neg h0, if_pos hlen]
    rw [hres]
    simp only [List.not_mem_nil, false_iff]
    intro hcontra
    exact hlen hcontra.1

/-- Claim C3. For every batch passed to vectorize (functions) or
vectorize_source (chunks), a flag update to true is issued for a row if and
only if the total vector count matches the processed row count, the group of
the row produced a non-trivial vector size, and the bulk insert_records call
for the repo group of that row returned the empty list of failed
identifiers; in every other case, a reported failure included, no flag
update is issued for the row, so the next scan re-attempts it. A missing
embedding model issues nothing at all. -/
theorem vectorize_flag_iff_c3 :
    (∀ (m : EmbModel) (trunc : String → Nat → String)
        (insert : String → List FnRecord → List String) (functions : List FnRow),
        ((functions.filter fun f => pyTruthy f.summary).map FnRow.id).Nodup →
        ∀ r ∈ functions, pyTruthy r.summary = true →
        (r.id ∈ (vectorizeFns (some m) trunc insert functions).2 ↔
          ((embedBatches m trunc ((functions.filter fun f => pyTruthy f.summary).map
              fun f => f.summary.getD "")).length
            = (functions.filter fun f => pyTruthy f.summary).length
          ∧ groupVectorSize fnPlan (functions.filter fun f => pyTruthy f.summary)
              (embedBatches m trunc ((functions.filter fun f => pyTruthy f.summary).map
                fun f => f.summary.getD "")) r.repo_id ≠ 0
          ∧ insert ("repo_" ++ r.repo_id ++ "_function")
              (groupRecords fnPlan (functions.filter fun f => pyTruthy f.summary)
                (embedBatches m trunc ((functions.filter fun f => pyTruthy f.summary).map
                  fun f => f.summary.getD "")) r.repo_id) = [])))
    ∧ (∀ (m : EmbModel) (trunc : String → Nat → String)
        (insert : String → List ChunkSourceRecord → List String)
        (chunks : List ChunkRow),
        ((chunks.filter fun _ => true).map ChunkRow.id).Nodup →
        ∀ c ∈ chunks,
        (c.id ∈ (vectorizeChunkSources (some m) trunc insert chunks).2 ↔
          ((embedBatches m trunc ((chunks.filter fun _ => true).map
              ChunkRow.source_code)).length
            = (chunks.filter fun _ => true).length
          ∧ groupVectorSize chunkSourcePlan (chunks.filter fun _ => true)
              (embedBatches m trunc ((chunks.filter fun _ => true).map
                ChunkRow.source_code)) c.repo_id ≠ 0
          ∧ insert ("repo_" ++ c.repo_id ++ "_chunk_source")
              (groupRecords chunkSourcePlan (chunks.filter fun _ => true)
                (embedBatches m trunc ((chunks.filter fun _ => true).map
                  ChunkRow.source_code)) c.repo_id) = [])))
    ∧ (∀ (trunc : String → Nat → String)
        (insert : String → List FnRecord → List String) (rows : List FnRow),
        vectorizeFns none trunc insert rows = (0, [])) := by
  refine ⟨?_, ?_, ?_⟩
  · intro m trunc insert functions hnodup r hr hsum
    exact vectorizeCore_flips_iff fnPlan m trunc insert functions hnodup r hr hsum
  · intro m trunc insert chunks hnodup c hc
    exact vectorizeCore_flips_iff chunkSourcePlan m trunc insert chunks hnodup c hc rfl
  · intro trunc insert rows
    cases rows <;> rfl

/-- Witness for claim C3: with an insert that reports no failure the flag
update is issued, and with an insert that reports a failed identifier it is
not. -/
theorem vectorize_flag_iff_c3_witness :
    "f1" ∈ (vectorizeFns (some c3Model) (fun s _ => s) (fun _ _ => []) [c3Fn1]).2
    ∧ "f1" ∉ (vectorizeFns (some c3Model) (fun s _ => s) (fun _ _ => ["f1"]) [c3Fn1]).2
    ∧ "c1" ∈ (vectorizeChunkSources (some c3Model) (fun s _ => s) (fun _ _ => [])
        [c3Chunk1]).2 := by
  refine ⟨?_, ?_, ?_⟩
  · exact (vectorize_flag_iff_c3.1 c3Model (fun s _ => s) (fun _ _ => []) [c3Fn1]
      (by decide) c3Fn1 (by decide) (by decide)).mpr (by decide)
  · intro hmem
    have h := (vectorize_flag_iff_c3.1 c3Model (fun s _ => s) (fun _ _ => ["f1"])
      [c3Fn1] (by decide) c3Fn1 (by decide) (by decide)).mp hmem
    exact absurd h.2.2 (by decide)
  · exact (vectorize_flag_iff_c3.2.1 c3Model (fun s _ => s) (fun _ _ => [])
      [c3Chunk1] (by decide) c3Chunk1 (by decide)).mpr (by decide)

theorem vectorizeCore_flips_subset {Row Rec : Type} (P : VectorizePlan Row Rec)
    (model : Option EmbModel) (trunc : String → Nat → String)
    (insert : String → List Rec → List String) (rows : List Row) :
    ∀ i ∈ (vectorizeCore P model trunc insert rows).2,
      ∃ row, row ∈ rows.filter P.keep ∧ P.rowId row = i := by
  intro i hi
  rw [vectorizeCore.eq_def] at hi
  dsimp only at hi
  split at hi
  · simp at hi
  · split at hi
    · simp at hi
    · rename_i m
      split at hi
      · simp at hi
      · split at hi
        · simp at hi
        · split at hi
          · simp at hi
          · dsimp only at hi
            rcases List.mem_flatMap.mp hi with ⟨pr, hpr, hin⟩
            rcases List.mem_map.mp hpr with ⟨rid, _, rfl⟩
            split at hin
            · split at hin
              · rcases List.mem_map.mp hin with ⟨p, hp, hpid⟩
                obtain ⟨a, b⟩ := p
                have hpair := List.mem_filter.mp hp
                exact ⟨a, (List.of_mem_zip hpair.1).1, hpid⟩
              · cases hin
            · cases hin

/-- Claim C8 counterexample. The raw update operation applies any patch: on
a freshly created row (flags false, summary null, so the invariant holds) a
patch carrying only is_vectorized=true is accepted and leaves the row with
is_vectorized=true, is_summarized=false and summary null, violating the
invariant; so not every operation preserves it. -/
theorem chunk_invariant_not_preserved_c8 :
    fnRowInv (newFnRow "f1" c8Data) = true
    ∧ fnRowInv (applyFnPatch (newFnRow "f1" c8Data)
        { summary := none, is_summarized := none, is_vectorized := some true })
        = false
    ∧ (applyFnPatch (newFnRow "f1" c8Data)
        { summary := none, is_summarized := none, is_vectorized := some true }).is_vectorized
        = true := by
  decide

/-- Claim C8 as amended. Every row is created with all flags false and
summary null, so the invariant holds on creation; the scan-driven pipeline
preserves it: scan_and_vectorize only flips is_vectorized on rows it
selected with is_summarized true and a non-null summary (likewise
scan_and_vectorize_summary for chunks); and update preserves it for every
patch that does not set a vectorized flag to true and does not set
is_summarized to false — but a raw update patch outside those bounds can
break it. -/
theorem chunk_invariants_amended_c8 :
    (∀ (newId : String) (d : FnCreateData),
      (newFnRow newId d).summary = none
      ∧ (newFnRow newId d).is_summarized = false
      ∧ (newFnRow newId d).is_vectorized = false
      ∧ fnRowInv (newFnRow newId d) = true)
    ∧ (∀ (newId : String) (d : ChunkCreateData),
      (newChunkRow newId d).summary = none
      ∧ (newChunkRow newId d).is_summarized = false
      ∧ (newChunkRow newId d).is_source_vectorized = false
      ∧ (newChunkRow newId d).is_summary_vectorized = false
      ∧ chunkRowInv (newChunkRow newId d) = true)
    ∧ (∀ (r : FnRow) (p : FnPatch), fnRowInv r = true →
      p.is_vectorized ≠ some true → p.is_summarized ≠ some false →
      fnRowInv (applyFnPatch r p) = true)
    ∧ (∀ (c : ChunkRow) (q : ChunkPatch), chunkRowInv c = true →
      q.is_summary_vectorized ≠ some true → q.is_summarized ≠ some false →
      chunkRowInv (applyChunkPatch c q) = true)
    ∧ (∀ (rid : String) (db : List FnRow) (model : Option EmbModel)
        (trunc : String → Nat → String)
        (insert : String → List FnRecord → List String) (limit : Nat),
      (db.map FnRow.id).Nodup → (∀ r ∈ db, fnRowInv r = true) →
      ∀ r₂ ∈ (scanAndVectorizeFns rid db model trunc insert limit).2,
        fnRowInv r₂ = true)
    ∧ (∀ (rid : String) (db : List ChunkRow) (model : Option EmbModel)
        (trunc : String → Nat → String)
        (insert : String → List ChunkSummaryRecord → List String) (limit : Nat),
      (db.map ChunkRow.id).Nodup → (∀ c ∈ db, chunkRowInv c = true) →
      ∀ c₂ ∈ (scanAndVectorizeChunkSummaries rid db model trunc insert limit).2,
        chunkRowInv c₂ = true) := by
  refine ⟨?_, ?_, ?_, ?_, ?_, ?_⟩
  · intro newId d
    exact ⟨rfl, rfl, rfl, rfl⟩
  · intro newId d
    exact ⟨rfl, rfl, rfl, rfl, rfl⟩
  · intro r p hinv h1 h2
    rcases p with ⟨ps, pis, piv⟩
    rcases piv with _ | bv
    · rcases pis with _ | bs
      · rcases ps with _ | s <;>
          simp_all [fnRowInv, applyFnPatch] <;> tauto
      · cases bs
        · exact absurd rfl h2
        · rcases ps with _ | s <;> simp_all [fnRowInv, applyFnPatch] <;> tauto
    · cases bv
      · rcases pis with _ | bs
        · rcases ps with _ | s <;> simp_all [fnRowInv, applyFnPatch] <;> tauto
        · cases bs
          · exact absurd rfl h2
          · rcases ps with _ | s <;> simp_all [fnRowInv, applyFnPatch] <;> tauto
      · exact absurd rfl h1
  · intro c q hinv h1 h2
    rcases q with ⟨ps, pis, psv, pmv⟩
    rcases pmv with _ | bv
    · rcases pis with _ | bs
      · rcases ps with _ | s <;> rcases psv with _ | b₃ <;>
          simp_all [chunkRowInv, applyChunkPatch] <;> tauto
      · cases bs
        · exact absurd rfl h2
        · rcases ps with _ | s <;> rcases psv with _ | b₃ <;>
            simp_all [chunkRowInv, applyChunkPatch] <;> tauto
    · cases bv
      · rcases pis with _ | bs
        · rcases ps with _ | s <;> rcases psv with _ | b₃ <;>
            simp_all [chunkRowInv, applyChunkPatch] <;> tauto
        · cases bs
          · exact absurd rfl h2
          · rcases ps with _ | s <;> rcases psv with _ | b₃ <;>
              simp_all [chunkRowInv, applyChunkPatch] <;> tauto
      · exact absurd rfl h1
  · intro rid db model trunc insert limit hnodup hall r₂ hr₂
    rw [scanAndVectorizeFns] at hr₂
    dsimp only at hr₂
    split at hr₂
    · exact hall r₂ hr₂
    · rcases List.mem_map.mp hr₂ with ⟨r, hrdb, rfl⟩
      split
      · rename_i hflip
        have hsub := vectorizeCore_flips_subset fnPlan model trunc insert
          (getUnvectorizedFns rid db limit) r.id (by
            simpa using hflip)
        rcases hsub with ⟨row, hrowmem, hrowid⟩
        have hrowun : row ∈ getUnvectorizedFns rid db limit :=
          (List.mem_filter.mp hrowmem).1
        have hrowdb : row ∈ db := by
          have := List.mem_of_mem_take (l := _) hrowun
          exact (List.mem_filter.mp (by
            rw [getUnvectorizedFns] at hrowun
            exact List.mem_of_mem_take hrowun)).1
        have hrflags := List.mem_filter.mp (by
          rw [getUnvectorizedFns] at hrowun
          exact List.mem_of_mem_take hrowun)
        have hroweq : row = r :=
          List.inj_on_of_nodup_map hnodup hrowdb hrdb hrowid
        have hcond := hrflags.2
        rw [hroweq] at hcond
        simp only [Bool.and_eq_true, Bool.not_eq_true] at hcond
        simp [fnRowInv, applyFnPatch, hcond.1.1.2, hcond.1.2]
      · exact hall r hrdb
  · intro rid db model trunc insert limit hnodup hall c₂ hc₂
    rw [scanAndVectorizeChunkSummaries] at hc₂
    dsimp only at hc₂
    split at hc₂
    · exact hall c₂ hc₂
    · rcases List.mem_map.mp hc₂ with ⟨c, hcdb, rfl⟩
      split
      · rename_i hflip
        have hsub := vectorizeCore_flips_subset chunkSummaryPlan model trunc insert
          (getSummaryUnvectorizedChunks rid db limit) c.id (by
            simpa using hflip)
        rcases hsub with ⟨row, hrowmem, hrowid⟩
        have hrowun : row ∈ getSummaryUnvectorizedChunks rid db limit :=
          (List.mem_filter.mp hrowmem).1
        have hrowdb : row ∈ db := by
          exact (List.mem_filter.mp (by
            rw [getSummaryUnvectorizedChunks] at hrowun
            exact List.mem_of_mem_take hrowun)).1
        have hrflags := List.mem_filter.mp (by
          rw [getSummaryUnvectorizedChunks] at hrowun
          exact List.mem_of_mem_take hrowun)
        have hkeep := (List.mem_filter.mp hrowmem).2
        have hroweq : row = c :=
          List.inj_on_of_nodup_map hnodup hrowdb hcdb hrowid
        have hcond := hrflags.2
        rw [hroweq] at hcond hkeep
        simp only [Bool.and_eq_true, Bool.not_eq_true] at hcond
        have hsome : c.summary.isSome = true := by
          have hkeep2 : pyTruthy c.summary = true := hkeep
          rcases hs : c.summary with _ | s
          · rw [hs] at hkeep2
            simp [pyTruthy] at hkeep2
          · rfl
        simp [chunkRowInv, applyChunkPatch, hcond.1.2, hsome]
      · exact hall c hcdb

/-- Witness for the amended claim C8 at concrete inputs. -/
theorem chunk_invariants_amended_c8_witness :
    fnRowInv (newFnRow "f1" c8Data) = true
    ∧ fnRowInv (applyFnPatch (newFnRow "f1" c8Data)
        { summary := some "adds", is_summarized := some true,
          is_vectorized := none }) = true
    ∧ (∀ r₂ ∈ (scanAndVectorizeFns "r" [c3Fn1] (some c3Model) (fun s _ => s)
        (fun _ _ => []) 100).2, fnRowInv r₂ = true) := by
  refine ⟨(chunk_invariants_amended_c8.1 "f1" c8Data).2.2.2, ?_, ?_⟩
  · exact chunk_invariants_amended_c8.2.2.1 (newFnRow "f1" c8Data)
      { summary := some "adds", is_summarized := some true, is_vectorized := none }
      (by decide) (by decide) (by decide)
  · exact chunk_invariants_amended_c8.2.2.2.2.1 "r" [c3Fn1] (some c3Model)
      (fun s _ => s) (fun _ _ => []) 100 (by decide) (by decide)

theorem applyFnFlips_nil (db : List FnRow) : applyFnFlips [] db = db := by
  simp [applyFnFlips]

/-- Claim C10. Every modelled operation of the management classes except
create returns its neutral default on any internal failure, with the
relational rows unchanged by the rolled-back transaction: update returns
None, delete returns False, scan_and_vectorize returns zero, the vector
search returns the empty SearchResponse with total zero — and the bodies of
update and delete do raise on a failed commit, the exception being caught
by the operation; create alone re-raises after rolling back. -/
theorem failure_semantics_c10 :
    (∀ (db : List ChunkRow) (newId : String) (d : ChunkCreateData),
      chunkCreateOp db newId d false = (.error (), db))
    ∧ (∀ (db : List FnRow) (newId : String) (d : FnCreateData),
      fnCreateOp db newId d false = (.error (), db))
    ∧ (∀ (db : List ChunkRow) (i : String) (p : ChunkPatch) (co : Bool),
      chunkUpdateOp db i p false co = (none, db))
    ∧ (∀ (db : List ChunkRow) (i : String) (p : ChunkPatch) (qo : Bool),
      chunkUpdateOp db i p qo false = (none, db))
    ∧ (∀ (db : List FnRow) (i : String) (co : Bool),
      fnDeleteOp db i false co = (false, db))
    ∧ (∀ (db : List FnRow) (i : String) (qo : Bool),
      fnDeleteOp db i qo false = (false, db))
    ∧ (∀ (rid : String) (db : List FnRow) (model : Option EmbModel)
        (trunc : String → Nat → String)
        (insert : String → List FnRecord → List String) (limit : Nat),
      fnScanAndVectorizeOp rid db model trunc insert limit false = (0, db))
    ∧ (∀ (rid : String) (db : List FnRow) (trunc : String → Nat → String)
        (insert : String → List FnRecord → List String) (limit : Nat)
        (scanOk : Bool),
      fnScanAndVectorizeOp rid db none trunc insert limit scanOk = (0, db))
    ∧ (∀ (modelOk : Bool) (qv : Option Vec)
        (sr : Except Unit (Nat × List SearchFieldData)),
      searchBySourceVectorOp none modelOk qv sr = { results := [], total := 0 })
    ∧ (∀ (rid : String) (qv : Option Vec)
        (sr : Except Unit (Nat × List SearchFieldData)),
      searchBySourceVectorOp (some rid) false qv sr = { results := [], total := 0 })
    ∧ (∀ (rid : String) (modelOk : Bool)
        (sr : Except Unit (Nat × List SearchFieldData)),
      searchBySourceVectorOp (some rid) modelOk none sr = { results := [], total := 0 })
    ∧ (∀ (rid : String) (qv : Vec),
      searchBySourceVectorOp (some rid) true (some qv) (.error ())
        = { results := [], total := 0 })
    ∧ chunkUpdateBody [c3Chunk1] "c1"
        { summary := some "s", is_summarized := some true,
          is_source_vectorized := none, is_summary_vectorized := none }
        true false = .error ()
    ∧ chunkUpdateOp [c3Chunk1] "c1"
        { summary := some "s", is_summarized := some true,
          is_source_vectorized := none, is_summary_vectorized := none }
        true false = (none, [c3Chunk1])
    ∧ fnDeleteBody [c3Fn1] "f1" true false = .error ()
    ∧ fnDeleteOp [c3Fn1] "f1" true false = (false, [c3Fn1]) := by
  refine ⟨fun db newId d => rfl, fun db newId d => rfl, fun db i p co => rfl,
    ?_, fun db i co => rfl, ?_, ?_, ?_,
    fun modelOk qv sr => rfl, fun rid qv sr => rfl, ?_, fun rid qv => rfl,
    rfl, rfl, rfl, rfl⟩
  · intro db i p qo
    rw [chunkUpdateOp, chunkUpdateBody]
    cases h : getChunkById db i qo <;> simp
  · intro db i qo
    rw [fnDeleteOp, fnDeleteBody]
    cases h : getFnById db i qo <;> simp
  · intro rid db model trunc insert limit
    rfl
  · intro rid db trunc insert limit scanOk
    have hnone : ∀ rows : List FnRow,
        vectorizeFns none trunc insert rows = (0, []) := by
      intro rows
      cases rows <;> rfl
    rw [fnScanAndVectorizeOp]
    dsimp only
    split
    · split
      · rfl
      · simp [hnone, applyFnFlips_nil]
    · rfl
  · intro rid modelOk sr
    cases modelOk <;> rfl
